import Mathlib

/-!
Verification of the rotation/animation state machine of
`src/verticalCarousel.tsx` (react-native-vertical-carousel).

The component is embedded shallowly:

* JavaScript array/number primitives (`Array.prototype.slice`, the `%`
  remainder) are modelled exactly, including negative-index clamping and the
  truncated (sign-of-dividend) remainder.
* The component instance is a state record `St`: the `copiedItems` React
  state, the `isShowDefaultItemBefore` and `animationTimeout` refs, the
  host's set of live `setTimeout` timers, the set of in-flight `Animated`
  sequences (each remembering the arguments its completion callback
  captured), and a log `shows` of every `onShow(item, index)` call.
* Each function of the source (`init`, `startAnimation`, `beginAnimation`
  with its completion callback, `clear`, `onStartOver`) becomes a state
  transformer; timer fire and animation completion become explicit events.
-/

namespace VerticalCarousel

/-- JavaScript `Array.prototype.slice(start, stop)` on lists: relative
indices, negative values counted from the end, clamped to `[0, length]`. -/
def jsSlice {I : Type} (l : List I) (start stop : Int) : List I :=
  let n : Int := l.length
  let s : Int := if start < 0 then max (n + start) 0 else min start n
  let e : Int := if stop < 0 then max (n + stop) 0 else min stop n
  (l.take e.toNat).drop s.toNat

/-- JavaScript one-argument `slice(start)`: everything from `start` on. -/
def jsSliceFrom {I : Type} (l : List I) (start : Int) : List I :=
  jsSlice l start l.length

/-- JavaScript `a % n` on numbers: truncated remainder (sign of the
dividend).  For `n = 0` JavaScript yields `NaN`; the only downstream use of
that value in the source is `Array.slice`, which coerces `NaN` to `0`, so
the model returns `0` there. -/
def jsRem (a : Int) (n : Nat) : Int :=
  if n = 0 then 0 else Int.tmod a n

/-- Lines 66-70 of the source: `_startIndex = startIndex % items.length`,
then `_copiedItems = [...items.slice(_startIndex), ...items.slice(0, _startIndex)]`. -/
def computeCopied {I : Type} (items : List I) (startIndex : Int) : List I :=
  let m := jsRem startIndex items.length
  jsSliceFrom items m ++ jsSlice items 0 m

/-- Construction-time props of the component (lines 14-24, 30-42). -/
structure Config (I : Type) where
  items : List I
  defaultItem : Option I
  displayTime : Nat
  isAnimationEnabled : Bool
  animationDuration : Nat
  startIndex : Int
deriving Repr, DecidableEq

/-- One live host timer created by `setTimeout` in `startAnimation`
(line 113), remembering the captured callback arguments and the delay. -/
structure Timer (I : Type) where
  id : Nat
  lastItems : List I
  counter : Int
  delay : Nat
deriving Repr, DecidableEq

/-- One in-flight `Animated.sequence` started by `beginAnimation`,
remembering the arguments its completion callback captured. -/
structure Anim (I : Type) where
  lastItems : List I
  counter : Int
deriving Repr, DecidableEq

/-- The whole observable instance state of one mounted component. -/
structure St (I : Type) where
  cfg : Config I
  /-- the `copiedItems` React state (line 43); the current Rotation Window -/
  copiedItems : List I
  /-- the `isShowDefaultItemBefore` ref (line 48) -/
  isShowDefaultItemBefore : Bool
  /-- the `animationTimeout` ref (line 47): the stored timer id, or null -/
  animationTimeout : Option Nat
  /-- the host's live timers (ids are handed out from `nextId`) -/
  pendingTimers : List (Timer I)
  /-- in-flight animations whose completion callback has not yet run -/
  anims : List (Anim I)
  /-- fresh-id supply for timer handles; host timer ids are positive -/
  nextId : Nat
  /-- log of every `onShow(item, index)` call, oldest first; the item is
  `Option` because the source indexes with `[0]`, which can be `undefined` -/
  shows : List (Option I × Int)
deriving Repr, DecidableEq

variable {I : Type}

/-- JavaScript `clearTimeout(id)`: kills the matching live timer, if any. -/
def clearTimeoutOp (s : St I) (id : Nat) : St I :=
  { s with pendingTimers := s.pendingTimers.filter (fun t => t.id != id) }

/-- Lines 62-65 (start of `init`): `if (animationTimeout.current)
{ clearTimeout(animationTimeout.current); animationTimeout.current = null; }`. -/
def cancelViaHandle (s : St I) : St I :=
  match s.animationTimeout with
  | some id => { clearTimeoutOp s id with animationTimeout := none }
  | none => s

/-- The delay the source passes to `setTimeout`:
`forceDisplayTime || displayTime` (`0` is falsy in JavaScript). -/
def armDelay (cfg : Config I) (forceDisplayTime : Option Nat) : Nat :=
  match forceDisplayTime with
  | some t => if t = 0 then cfg.displayTime else t
  | none => cfg.displayTime

/-- Lines 104-119, `startAnimation(lastItems, counter = startIndex,
forceDisplayTime?)`: no-op when animation is disabled or the window has at
most one element; otherwise `setTimeout` of the timer callback (which nulls
the handle and calls `beginAnimation`) after `forceDisplayTime || displayTime`
milliseconds, storing the id in `animationTimeout.current`. -/
def startAnimation (s : St I) (lastItems : List I) (counter : Int)
    (forceDisplayTime : Option Nat) : St I :=
  if s.cfg.isAnimationEnabled = false ∨ lastItems.length ≤ 1 then s
  else
    { s with
      pendingTimers := s.pendingTimers
        ++ [⟨s.nextId, lastItems, counter, armDelay s.cfg forceDisplayTime⟩],
      animationTimeout := some s.nextId,
      nextId := s.nextId + 1 }

/-- Lines 121-131: `beginAnimation(lastItems, counter)` starts the
`Animated.sequence`; the completion callback (lines 131-155) is modelled
separately as `onAnimationDone`. -/
def beginAnimation (s : St I) (lastItems : List I) (counter : Int) : St I :=
  { s with anims := s.anims ++ [⟨lastItems, counter⟩] }

/-- Lines 131-155, the completion callback of `beginAnimation`:
`nextIndex = (counter + 1) % lastItems.length`; cyclic left shift of
`lastItems`; if `isShowDefaultItemBefore` then pop the last element, clear
the flag and decrement `nextIndex`; `onShow(shiftedItems[0], nextIndex)`;
replace `copiedItems`; re-arm via `startAnimation(shiftedItems, counter + 1)`
when more than one element remains. -/
def onAnimationDone (s : St I) (lastItems : List I) (counter : Int) : St I :=
  let nextIndex : Int := jsRem (counter + 1) lastItems.length
  let shiftedItems := jsSliceFrom lastItems 1 ++ jsSlice lastItems 0 1
  -- `if (isShowDefaultItemBefore.current) { shiftedItems.pop(); ... }`;
  -- writing the flag to `false` unconditionally agrees with the source,
  -- which only clears it when it was already `true`
  let shiftedItems' := if s.isShowDefaultItemBefore then shiftedItems.dropLast
                       else shiftedItems
  let nextIndex' := if s.isShowDefaultItemBefore then nextIndex - 1 else nextIndex
  let s1 := { s with
    isShowDefaultItemBefore := false,
    shows := s.shows ++ [(shiftedItems'.head?, nextIndex')],
    copiedItems := shiftedItems' }
  if shiftedItems'.length > 1 then startAnimation s1 shiftedItems' (counter + 1) none
  else s1

/-- Lines 61-102, `init()`: cancel-and-null via the handle, compute the
rotated window, then the three guarded branches of the source.  The source
tests the first guard as `!items.length && defaultItem`; an empty collection
without a default item falls through every branch, which the `none` arm
reproduces. -/
def init (s : St I) : St I :=
  let s1 := cancelViaHandle s
  let sIdx := jsRem s.cfg.startIndex s.cfg.items.length
  let copied := computeCopied s.cfg.items s.cfg.startIndex
  if s.cfg.items.length = 0 then
    -- show default item if no items (lines 73-77)
    match s.cfg.defaultItem with
    | some d => { s1 with copiedItems := [d], isShowDefaultItemBefore := true }
    | none => s1
  else if s.cfg.defaultItem.isSome = true ∧ s.cfg.isAnimationEnabled = true
      ∧ s.isShowDefaultItemBefore = true then
    -- need animate from defaultItem to items (lines 80-90);
    -- `_copiedItems.unshift(defaultItem)`: `toList` is `[d]` here since the
    -- guard requires `isSome`
    let w := s.cfg.defaultItem.toList ++ copied
    startAnimation { s1 with copiedItems := w } w sIdx (some 100)
  else if s.cfg.isAnimationEnabled = true then
    -- show normal animation (lines 93-101)
    let s2 := { s1 with
      copiedItems := copied,
      shows := s1.shows ++ [(copied.head?, s.cfg.startIndex)] }
    if s.cfg.items.length > 1 then startAnimation s2 copied s.cfg.startIndex none
    else s2
  else s1

/-- Lines 160-164, `clear()`: `if (animationTimeout.current)
clearTimeout(animationTimeout.current)`.  Unlike `init`, the handle is not
nulled. -/
def clear (s : St I) : St I :=
  match s.animationTimeout with
  | some id => clearTimeoutOp s id
  | none => s

/-- Lines 166-169, `onStartOver()`: `clear(); init();`. -/
def onStartOver (s : St I) : St I :=
  init (clear s)

/-- A change of the `items` prop (or any prop): the `useEffect` on `[items]`
re-runs `init` against the new configuration (lines 55-59). -/
def reinit (newCfg : Config I) (s : St I) : St I :=
  init { s with cfg := newCfg }

/-- The instance state just after mounting, before the first effect:
empty window, flag down, no handle, no timers, no animations, no calls. -/
def mkSt (cfg : Config I) : St I :=
  ⟨cfg, [], false, none, [], [], 1, []⟩

/-- The state after mounting: the `useEffect` runs `init`. -/
def initialState (cfg : Config I) : St I :=
  init (mkSt cfg)

/-- The event `the pending timer at position i fires`: the host removes the
timer, the callback (line 113-116) nulls the handle and calls
`beginAnimation(lastItems, counter)`. -/
def fireAt (s : St I) (i : Nat) : St I :=
  match s.pendingTimers[i]? with
  | some t =>
      beginAnimation
        { s with pendingTimers := s.pendingTimers.eraseIdx i,
                 animationTimeout := none }
        t.lastItems t.counter
  | none => s

/-- The event `the in-flight animation at position i completes`: the host
removes it and runs its completion callback. -/
def completeAt (s : St I) (i : Nat) : St I :=
  match s.anims[i]? with
  | some a => onAnimationDone { s with anims := s.anims.eraseIdx i } a.lastItems a.counter
  | none => s

/-- One full successful advance on the happy path: the (unique) pending
timer fires and the animation it starts completes. -/
def advanceOnce (s : St I) : St I :=
  completeAt (fireAt s 0) 0

/-- Lines 179-191: the rendered stack is
`copiedItems.slice(0, 3).map(item => renderItem(item))`. -/
def renderStack {V : Type} (renderItem : I → V) (s : St I) : List V :=
  (jsSlice s.copiedItems 0 3).map renderItem

/-- Steps that can happen between two observations while the configuration
is unchanged: a pending timer fires, an in-flight animation completes, or
the owner calls `clear()`. -/
inductive RunStep : St I → St I → Prop where
  | fire (s : St I) (i : Nat) (h : i < s.pendingTimers.length) :
      RunStep s (fireAt s i)
  | done (s : St I) (i : Nat) (h : i < s.anims.length) :
      RunStep s (completeAt s i)
  | clearStep (s : St I) : RunStep s (clear s)

/-- Reachability by `RunStep`s. -/
def RunReach (s s' : St I) : Prop :=
  Relation.ReflTransGen RunStep s s'

/-- Steps including re-initialisation (prop changes and `startOver()`), in
interleavings where no animation that was started before a reset completes
after it: a reset only happens with no animation in flight. -/
inductive CleanStep : St I → St I → Prop where
  | ofRun (s s' : St I) (h : RunStep s s') : CleanStep s s'
  | reinitStep (s : St I) (newCfg : Config I) (h : s.anims = []) :
      CleanStep s (reinit newCfg s)
  | startOverStep (s : St I) (h : s.anims = []) :
      CleanStep s (onStartOver s)

/-- Reachability by `CleanStep`s. -/
def CleanReach (s s' : St I) : Prop :=
  Relation.ReflTransGen CleanStep s s'

/-! ### Arithmetic facts about the JavaScript remainder -/

/-- The truncated remainder is bounded below by `-n` for positive `n`. -/
theorem tmod_gt_neg (a n : Int) (h : 0 < n) : -n < a.tmod n := by
  rcases le_or_lt 0 a with ha | ha
  · have := Int.tmod_nonneg n ha
    omega
  · have h1 : (-a).tmod n < n := Int.tmod_lt_of_pos (-a) h
    have h2 : (-a).tmod n = -(a.tmod n) := by
      simp only [Int.tmod_def, Int.neg_tdiv]
      ring
    omega

/-- The truncated remainder is congruent to the dividend modulo `n`. -/
theorem tmod_emod (a n : Int) : (a.tmod n) % n = a % n := by
  rw [Int.emod_eq_emod_iff_emod_sub_eq_zero]
  refine Int.emod_eq_zero_of_dvd ⟨-(a.tdiv n), ?_⟩
  rw [Int.tmod_def]
  ring

/-- The JavaScript remainder is congruent to the dividend modulo `n`. -/
theorem jsRem_emod (a : Int) (n : Nat) (hn : n ≠ 0) :
    (jsRem a n) % (n : Int) = a % (n : Int) := by
  unfold jsRem
  rw [if_neg hn]
  exact tmod_emod a n

/-- Normalising the truncated remainder by one addition and a second
remainder yields the Euclidean remainder (the spec's
`((offset % length) + length) % length`). -/
theorem tmod_norm_eq_emod (a : Int) (n : Nat) (hn : 0 < n) :
    (a.tmod n + n).tmod n = a % (n : Int) := by
  have hn' : (0 : Int) < n := by exact_mod_cast hn
  have h1 : (0 : Int) ≤ a.tmod n + n := by
    have := tmod_gt_neg a n hn'
    omega
  rw [Int.tmod_eq_emod h1 (le_of_lt hn')]
  rw [show (Int.tmod a n + (n : Int)) = Int.tmod a n + (n : Int) * 1 by ring,
    Int.add_mul_emod_self_left]
  exact tmod_emod a n

/-! ### The rotated window is a cyclic rotation -/

/-- One-argument `slice` at a small index (positive or negative) drops the
Euclidean-normalised prefix. -/
theorem emod_eq_add_of_neg (m : Int) (n : Nat) (h1 : -(n : Int) < m)
    (hm : m < 0) : m % (n : Int) = (n : Int) + m := by
  have h3 : (m + (n : Int) * 1) % (n : Int) = m % (n : Int) :=
    Int.add_mul_emod_self_left m _ 1
  rw [mul_one] at h3
  rw [← h3, Int.emod_eq_of_lt (by omega) (by omega)]
  ring

theorem jsSliceFrom_small (l : List I) (m : Int)
    (h1 : -(l.length : Int) < m) (h2 : m < (l.length : Int)) :
    jsSliceFrom l m = l.drop ((m % (l.length : Int)).toNat) := by
  unfold jsSliceFrom jsSlice
  have hlen : ¬ ((l.length : Int) < 0) := by omega
  rcases lt_or_le m 0 with hm | hm
  · rw [emod_eq_add_of_neg m l.length h1 hm]
    simp only [if_pos hm, if_neg hlen, min_self]
    rw [Int.toNat_natCast, List.take_length]
    congr 1
    omega
  · rw [Int.emod_eq_of_lt hm h2]
    simp only [if_neg (not_lt.mpr hm), if_neg hlen, min_self]
    rw [min_eq_left (le_of_lt h2), Int.toNat_natCast, List.take_length]

/-- Two-argument `slice(0, m)` at a small index (positive or negative)
takes the Euclidean-normalised prefix. -/
theorem jsSlice_zero_small (l : List I) (m : Int)
    (h1 : -(l.length : Int) < m) (h2 : m < (l.length : Int)) :
    jsSlice l 0 m = l.take ((m % (l.length : Int)).toNat) := by
  unfold jsSlice
  have h0 : ¬ ((0 : Int) < 0) := by omega
  rcases lt_or_le m 0 with hm | hm
  · rw [emod_eq_add_of_neg m l.length h1 hm]
    simp only [if_pos hm, if_neg h0]
    rw [min_eq_left (by omega : (0 : Int) ≤ (l.length : Int))]
    simp only [Int.toNat_zero, List.drop_zero]
    congr 1
    omega
  · rw [Int.emod_eq_of_lt hm h2]
    simp only [if_neg (not_lt.mpr hm), if_neg h0]
    rw [min_eq_left (by omega : (0 : Int) ≤ (l.length : Int)),
      min_eq_left (le_of_lt h2)]
    simp

/-- The index picked by the source is in range. -/
theorem emod_toNat_lt (off : Int) (n : Nat) (hn : 0 < n) :
    (off % (n : Int)).toNat < n := by
  have h1 := Int.emod_lt_of_pos off (b := (n : Int)) (by exact_mod_cast hn)
  have h2 := Int.emod_nonneg off (b := (n : Int)) (by exact_mod_cast hn.ne')
  omega

/-- Lines 66-70 compute exactly the cyclic rotation of `items` by the
Euclidean-normalised start offset, for every integer offset. -/
theorem computeCopied_eq_rotate (items : List I) (off : Int) (h : items ≠ []) :
    computeCopied items off
      = items.rotate ((off % (items.length : Int)).toNat) := by
  have hn : 0 < items.length := List.length_pos.mpr h
  have hn' : (0 : Int) < items.length := by exact_mod_cast hn
  have hb2 : jsRem off items.length < (items.length : Int) := by
    unfold jsRem
    rw [if_neg hn.ne']
    exact Int.tmod_lt_of_pos off hn'
  have hb1 : -(items.length : Int) < jsRem off items.length := by
    unfold jsRem
    rw [if_neg hn.ne']
    exact tmod_gt_neg off items.length hn'
  rw [show computeCopied items off
        = jsSliceFrom items (jsRem off items.length)
            ++ jsSlice items 0 (jsRem off items.length) from rfl]
  rw [jsSliceFrom_small _ _ hb1 hb2, jsSlice_zero_small _ _ hb1 hb2,
    jsRem_emod off items.length hn.ne']
  rw [← List.rotate_eq_drop_append_take (le_of_lt (emod_toNat_lt off _ hn))]

/-- The head of a small rotation reads the list at the rotation index. -/
theorem head?_rotate_small (l : List I) (k : Nat) (h : k < l.length) :
    (l.rotate k).head? = l[k]? := by
  rw [List.rotate_eq_drop_append_take (le_of_lt h), List.head?_append,
    List.head?_eq_getElem?, List.getElem?_drop, Nat.add_zero,
    List.getElem?_eq_getElem h]
  rfl

/-- The rotated window keeps the collection's length. -/
theorem computeCopied_length (items : List I) (off : Int) (h : items ≠ []) :
    (computeCopied items off).length = items.length := by
  rw [computeCopied_eq_rotate items off h, List.length_rotate]

/-- C7: for every non-empty item collection and every integer startOffset —
negative or beyond the length included — the computed Rotation Window is a
permutation of `items`, its first element is
`items[((startOffset % len) + len) % len]` (with the source's truncated
`%`), and the computation is total, hence raises no error. -/
theorem rotation_window_ok (items : List I) (off : Int) (h : items ≠ []) :
    (computeCopied items off).Perm items ∧
    (computeCopied items off).head?
      = items[((off.tmod items.length + items.length).tmod items.length).toNat]? := by
  have hn : 0 < items.length := List.length_pos.mpr h
  have hrot := computeCopied_eq_rotate items off h
  refine ⟨?_, ?_⟩
  · rw [hrot]
    exact List.rotate_perm items _
  · rw [hrot, head?_rotate_small _ _ (emod_toNat_lt off _ hn),
      tmod_norm_eq_emod off items.length hn]

/-- C7 witness at `items = [10, 20, 30]`, `startOffset = -4`. -/
theorem rotation_window_ok_w :
    ([10, 20, 30] : List Nat) ≠ [] ∧
    ((computeCopied [10, 20, 30] (-4)).Perm [10, 20, 30] ∧
      (computeCopied [10, 20, 30] (-4)).head?
        = [10, 20, 30][((Int.tmod (-4) 3 + 3).tmod 3).toNat]?) :=
  ⟨by decide, rotation_window_ok [10, 20, 30] (-4) (by decide)⟩

/-- C10: at every instant the rendered stack is exactly the first
`min(3, len(window))` elements of the current Rotation Window, in window
order, each passed through the render mapping; later window elements are
never rendered. -/
theorem render_stack_first_three {V : Type} (renderItem : I → V) (s : St I) :
    renderStack renderItem s
        = (s.copiedItems.take (min 3 s.copiedItems.length)).map renderItem ∧
      renderStack renderItem s = (s.copiedItems.take 3).map renderItem := by
  have hslice : jsSlice s.copiedItems 0 3 = s.copiedItems.take 3 := by
    unfold jsSlice
    have h0 : ¬ ((0 : Int) < 0) := by omega
    have h3 : ¬ ((3 : Int) < 0) := by omega
    simp only [if_neg h0, if_neg h3]
    rw [min_eq_left (by omega : (0 : Int) ≤ (s.copiedItems.length : Int))]
    simp only [Int.toNat_zero, List.drop_zero]
    rcases le_total s.copiedItems.length 3 with hl | hl
    · rw [min_eq_right (by exact_mod_cast hl), Int.toNat_natCast,
        List.take_length, List.take_of_length_le hl]
    · rw [min_eq_left (by exact_mod_cast hl)]
      rfl
  have htake : s.copiedItems.take (min 3 s.copiedItems.length)
      = s.copiedItems.take 3 := by
    rcases le_total s.copiedItems.length 3 with hl | hl
    · rw [min_eq_right hl, List.take_length, List.take_of_length_le hl]
    · rw [min_eq_left hl]
  constructor
  · unfold renderStack
    rw [hslice, htake]
  · unfold renderStack
    rw [hslice]

/-! ### Which fields each operation leaves untouched -/

@[simp] theorem clearTimeoutOp_cfg (s : St I) (id : Nat) :
    (clearTimeoutOp s id).cfg = s.cfg := rfl
@[simp] theorem clearTimeoutOp_copiedItems (s : St I) (id : Nat) :
    (clearTimeoutOp s id).copiedItems = s.copiedItems := rfl
@[simp] theorem clearTimeoutOp_flag (s : St I) (id : Nat) :
    (clearTimeoutOp s id).isShowDefaultItemBefore = s.isShowDefaultItemBefore := rfl
@[simp] theorem clearTimeoutOp_anims (s : St I) (id : Nat) :
    (clearTimeoutOp s id).anims = s.anims := rfl
@[simp] theorem clearTimeoutOp_nextId (s : St I) (id : Nat) :
    (clearTimeoutOp s id).nextId = s.nextId := rfl
@[simp] theorem clearTimeoutOp_shows (s : St I) (id : Nat) :
    (clearTimeoutOp s id).shows = s.shows := rfl
@[simp] theorem clearTimeoutOp_animationTimeout (s : St I) (id : Nat) :
    (clearTimeoutOp s id).animationTimeout = s.animationTimeout := rfl

@[simp] theorem cancelViaHandle_cfg (s : St I) : (cancelViaHandle s).cfg = s.cfg := by
  unfold cancelViaHandle; cases s.animationTimeout <;> rfl
@[simp] theorem cancelViaHandle_copiedItems (s : St I) :
    (cancelViaHandle s).copiedItems = s.copiedItems := by
  unfold cancelViaHandle; cases s.animationTimeout <;> rfl
@[simp] theorem cancelViaHandle_flag (s : St I) :
    (cancelViaHandle s).isShowDefaultItemBefore = s.isShowDefaultItemBefore := by
  unfold cancelViaHandle; cases s.animationTimeout <;> rfl
@[simp] theorem cancelViaHandle_anims (s : St I) : (cancelViaHandle s).anims = s.anims := by
  unfold cancelViaHandle; cases s.animationTimeout <;> rfl
@[simp] theorem cancelViaHandle_nextId (s : St I) : (cancelViaHandle s).nextId = s.nextId := by
  unfold cancelViaHandle; cases s.animationTimeout <;> rfl
@[simp] theorem cancelViaHandle_shows (s : St I) : (cancelViaHandle s).shows = s.shows := by
  unfold cancelViaHandle; cases s.animationTimeout <;> rfl

@[simp] theorem clear_cfg (s : St I) : (clear s).cfg = s.cfg := by
  unfold clear; cases s.animationTimeout <;> rfl
@[simp] theorem clear_copiedItems (s : St I) : (clear s).copiedItems = s.copiedItems := by
  unfold clear; cases s.animationTimeout <;> rfl
@[simp] theorem clear_flag (s : St I) :
    (clear s).isShowDefaultItemBefore = s.isShowDefaultItemBefore := by
  unfold clear; cases s.animationTimeout <;> rfl
@[simp] theorem clear_anims (s : St I) : (clear s).anims = s.anims := by
  unfold clear; cases s.animationTimeout <;> rfl
@[simp] theorem clear_nextId (s : St I) : (clear s).nextId = s.nextId := by
  unfold clear; cases s.animationTimeout <;> rfl
@[simp] theorem clear_shows (s : St I) : (clear s).shows = s.shows := by
  unfold clear; cases s.animationTimeout <;> rfl
@[simp] theorem clear_animationTimeout (s : St I) :
    (clear s).animationTimeout = s.animationTimeout := by
  unfold clear; cases h : s.animationTimeout <;> simp [h]

@[simp] theorem startAnimation_cfg (s : St I) (w : List I) (c : Int) (f : Option Nat) :
    (startAnimation s w c f).cfg = s.cfg := by
  unfold startAnimation; split <;> rfl
@[simp] theorem startAnimation_copiedItems (s : St I) (w : List I) (c : Int) (f : Option Nat) :
    (startAnimation s w c f).copiedItems = s.copiedItems := by
  unfold startAnimation; split <;> rfl
@[simp] theorem startAnimation_flag (s : St I) (w : List I) (c : Int) (f : Option Nat) :
    (startAnimation s w c f).isShowDefaultItemBefore = s.isShowDefaultItemBefore := by
  unfold startAnimation; split <;> rfl
@[simp] theorem startAnimation_anims (s : St I) (w : List I) (c : Int) (f : Option Nat) :
    (startAnimation s w c f).anims = s.anims := by
  unfold startAnimation; split <;> rfl
@[simp] theorem startAnimation_shows (s : St I) (w : List I) (c : Int) (f : Option Nat) :
    (startAnimation s w c f).shows = s.shows := by
  unfold startAnimation; split <;> rfl

@[simp] theorem beginAnimation_cfg (s : St I) (w : List I) (c : Int) :
    (beginAnimation s w c).cfg = s.cfg := rfl
@[simp] theorem beginAnimation_copiedItems (s : St I) (w : List I) (c : Int) :
    (beginAnimation s w c).copiedItems = s.copiedItems := rfl
@[simp] theorem beginAnimation_flag (s : St I) (w : List I) (c : Int) :
    (beginAnimation s w c).isShowDefaultItemBefore = s.isShowDefaultItemBefore := rfl
@[simp] theorem beginAnimation_shows (s : St I) (w : List I) (c : Int) :
    (beginAnimation s w c).shows = s.shows := rfl
@[simp] theorem beginAnimation_nextId (s : St I) (w : List I) (c : Int) :
    (beginAnimation s w c).nextId = s.nextId := rfl

@[simp] theorem onAnimationDone_cfg (s : St I) (w : List I) (c : Int) :
    (onAnimationDone s w c).cfg = s.cfg := by
  simp only [onAnimationDone]; split <;> split <;> simp
@[simp] theorem onAnimationDone_flag (s : St I) (w : List I) (c : Int) :
    (onAnimationDone s w c).isShowDefaultItemBefore = false := by
  simp only [onAnimationDone]; split <;> split <;> simp

@[simp] theorem init_cfg (s : St I) : (init s).cfg = s.cfg := by
  unfold init
  split
  · cases s.cfg.defaultItem <;> simp
  · split
    · simp
    · split
      · split <;> simp
      · simp

@[simp] theorem init_anims (s : St I) : (init s).anims = s.anims := by
  unfold init
  split
  · cases s.cfg.defaultItem <;> simp
  · split
    · simp
    · split
      · split <;> simp
      · simp

@[simp] theorem fireAt_cfg (s : St I) (i : Nat) : (fireAt s i).cfg = s.cfg := by
  unfold fireAt; cases s.pendingTimers[i]? <;> rfl
@[simp] theorem fireAt_copiedItems (s : St I) (i : Nat) :
    (fireAt s i).copiedItems = s.copiedItems := by
  unfold fireAt; cases s.pendingTimers[i]? <;> rfl
@[simp] theorem fireAt_flag (s : St I) (i : Nat) :
    (fireAt s i).isShowDefaultItemBefore = s.isShowDefaultItemBefore := by
  unfold fireAt; cases s.pendingTimers[i]? <;> rfl
@[simp] theorem fireAt_shows (s : St I) (i : Nat) : (fireAt s i).shows = s.shows := by
  unfold fireAt; cases s.pendingTimers[i]? <;> rfl
@[simp] theorem fireAt_nextId (s : St I) (i : Nat) : (fireAt s i).nextId = s.nextId := by
  unfold fireAt; cases s.pendingTimers[i]? <;> rfl

@[simp] theorem completeAt_cfg (s : St I) (i : Nat) : (completeAt s i).cfg = s.cfg := by
  unfold completeAt; cases s.anims[i]? <;> simp

/-! ### Branch normal forms of the initializer -/

/-- Branch none-of-the-above: empty collection, no default item. -/
theorem init_empty_none (s : St I) (h0 : s.cfg.items.length = 0)
    (h1 : s.cfg.defaultItem = none) : init s = cancelViaHandle s := by
  simp [init, h0, h1]

/-- Branch 1: empty collection with a default item. -/
theorem init_empty_some (s : St I) (d : I) (h0 : s.cfg.items.length = 0)
    (h1 : s.cfg.defaultItem = some d) :
    init s = { cancelViaHandle s with
               copiedItems := [d]
               isShowDefaultItemBefore := true } := by
  simp [init, h0, h1]

/-- Branch 2: non-empty collection arriving while the default item shows. -/
theorem init_fallback (s : St I) (d : I) (h0 : ¬ s.cfg.items.length = 0)
    (h1 : s.cfg.defaultItem = some d) (h2 : s.cfg.isAnimationEnabled = true)
    (h3 : s.isShowDefaultItemBefore = true) :
    init s = startAnimation
        { cancelViaHandle s with
          copiedItems := d :: computeCopied s.cfg.items s.cfg.startIndex }
        (d :: computeCopied s.cfg.items s.cfg.startIndex)
        (jsRem s.cfg.startIndex s.cfg.items.length) (some 100) := by
  simp [init, h0, h1, h2, h3]

/-- Branch 3: the normal initialisation; window set, observer notified with
the raw `startIndex`, scheduler armed when more than one item exists. -/
theorem init_normal (s : St I) (h0 : ¬ s.cfg.items.length = 0)
    (h2 : s.cfg.isAnimationEnabled = true)
    (h13 : s.cfg.defaultItem = none ∨ s.isShowDefaultItemBefore = false) :
    init s =
      (if s.cfg.items.length > 1 then
        startAnimation
          { cancelViaHandle s with
            copiedItems := computeCopied s.cfg.items s.cfg.startIndex,
            shows := s.shows
              ++ [((computeCopied s.cfg.items s.cfg.startIndex).head?, s.cfg.startIndex)] }
          (computeCopied s.cfg.items s.cfg.startIndex) s.cfg.startIndex none
      else
        { cancelViaHandle s with
          copiedItems := computeCopied s.cfg.items s.cfg.startIndex,
          shows := s.shows
            ++ [((computeCopied s.cfg.items s.cfg.startIndex).head?, s.cfg.startIndex)] }) := by
  rcases h13 with h1 | h3
  · simp [init, h0, h1, h2]
  · simp [init, h0, h2, h3]

/-- Branch disabled: animation disabled and the collection non-empty (or
empty with no default): nothing but the cancel happens. -/
theorem init_disabled (s : St I) (h0 : ¬ s.cfg.items.length = 0)
    (h2 : s.cfg.isAnimationEnabled = false) : init s = cancelViaHandle s := by
  simp [init, h0, h2]

/-! ### Computation rules for the scheduler, the timer event and the
completion callback -/

/-- When the guard fails nothing is armed. -/
theorem startAnimation_skip (s : St I) (w : List I) (c : Int) (f : Option Nat)
    (h : s.cfg.isAnimationEnabled = false ∨ w.length ≤ 1) :
    startAnimation s w c f = s := by
  unfold startAnimation
  rw [if_pos h]

/-- When the guard passes, one timer is appended and the handle updated. -/
theorem startAnimation_arm (s : St I) (w : List I) (c : Int) (f : Option Nat)
    (hen : s.cfg.isAnimationEnabled = true) (hw : 1 < w.length) :
    startAnimation s w c f = { s with
      pendingTimers := s.pendingTimers ++ [⟨s.nextId, w, c, armDelay s.cfg f⟩]
      animationTimeout := some s.nextId
      nextId := s.nextId + 1 } := by
  unfold startAnimation
  rw [if_neg (by simp [hen]; omega)]

/-- The single-step cyclic shift `[...lastItems.slice(1), ...lastItems.slice(0, 1)]`. -/
theorem jsShift_eq (w : List I) :
    jsSliceFrom w 1 ++ jsSlice w 0 1 = w.drop 1 ++ w.take 1 := by
  unfold jsSliceFrom jsSlice
  have h1 : ¬ ((1 : Int) < 0) := by omega
  have h0 : ¬ ((0 : Int) < 0) := by omega
  have hlen : ¬ ((w.length : Int) < 0) := by omega
  simp only [if_neg h1, if_neg h0, if_neg hlen, min_self, Int.toNat_natCast,
    List.take_length]
  cases w with
  | nil => rfl
  | cons a t =>
    have hm : min (1 : Int) (((a :: t).length : Int)) = 1 := by
      rw [min_eq_left]
      rw [List.length_cons]
      omega
    have hz : min (0 : Int) (((a :: t).length : Int)) = 0 := by
      rw [min_eq_left]
      omega
    rw [hm, hz]
    rfl

/-- Normal form of the completion callback, with the flag-dependent values
hoisted out of the control flow. -/
def doneState (s : St I) (w : List I) (c : Int) : St I :=
  let shifted := if s.isShowDefaultItemBefore then (w.drop 1 ++ w.take 1).dropLast
                 else w.drop 1 ++ w.take 1
  let idx := if s.isShowDefaultItemBefore then jsRem (c + 1) w.length - 1
             else jsRem (c + 1) w.length
  let s1 := { s with
    isShowDefaultItemBefore := false
    shows := s.shows ++ [(shifted.head?, idx)]
    copiedItems := shifted }
  if shifted.length > 1 then startAnimation s1 shifted (c + 1) none else s1

/-- The completion callback computes `doneState`. -/
theorem onAnimationDone_eq (s : St I) (w : List I) (c : Int) :
    onAnimationDone s w c = doneState s w c := by
  unfold onAnimationDone doneState
  rw [jsShift_eq]

/-- Firing the only pending timer removes it, nulls the handle and puts the
captured payload in flight. -/
theorem fireAt_singleton (s : St I) (t : Timer I) (hp : s.pendingTimers = [t]) :
    fireAt s 0 = { s with
      pendingTimers := []
      animationTimeout := none
      anims := s.anims ++ [⟨t.lastItems, t.counter⟩] } := by
  unfold fireAt
  rw [hp]
  simp [beginAnimation]

/-- With no timer pending, the fire event cannot happen (no-op). -/
theorem fireAt_nil (s : St I) (hp : s.pendingTimers = []) (i : Nat) :
    fireAt s i = s := by
  unfold fireAt
  rw [hp]
  simp

/-- Completing the only in-flight animation removes it and runs the
callback on its captured payload. -/
theorem completeAt_singleton (s : St I) (a : Anim I) (ha : s.anims = [a]) :
    completeAt s 0 = onAnimationDone { s with anims := [] } a.lastItems a.counter := by
  unfold completeAt
  rw [ha]
  simp

/-- With nothing in flight, the completion event cannot happen (no-op). -/
theorem completeAt_nil (s : St I) (ha : s.anims = []) (i : Nat) :
    completeAt s i = s := by
  unfold completeAt
  rw [ha]
  simp

/-- A fallback completion on a window of at most two elements arms nothing:
after popping the default item at most one element remains. -/
theorem onAnimationDone_noRearm (s : St I) (w : List I) (c : Int)
    (hf : s.isShowDefaultItemBefore = true) (hlen : w.length ≤ 2) :
    (onAnimationDone s w c).pendingTimers = s.pendingTimers := by
  rw [onAnimationDone_eq]
  simp only [doneState, hf, if_true]
  rw [if_neg (by
    simp only [List.length_dropLast, List.length_append, List.length_drop,
      List.length_take]
    omega)]

@[simp] theorem armDelay_none (cfg : Config I) : armDelay cfg none = cfg.displayTime := rfl

/-- The JavaScript remainder is the identity on in-range indices. -/
theorem jsRem_of_inrange (a : Int) (n : Nat) (h0 : 0 ≤ a) (h1 : a < n) :
    jsRem a n = a := by
  unfold jsRem
  rw [if_neg (by omega), Int.tmod_eq_emod h0 (by positivity),
    Int.emod_eq_of_lt h0 h1]

/-- The head of any rotation reads the list at the index modulo length. -/
theorem head?_rotate_mod (l : List I) (m : Nat) (h : l ≠ []) :
    (l.rotate m).head? = l[m % l.length]? := by
  have hn : 0 < l.length := List.length_pos.mpr h
  rw [← List.rotate_mod]
  exact head?_rotate_small l (m % l.length) (Nat.mod_lt _ hn)

/-- The cancel step never grows the set of live timers. -/
theorem cancelViaHandle_pendingTimers_length (s : St I) :
    (cancelViaHandle s).pendingTimers.length ≤ s.pendingTimers.length := by
  unfold cancelViaHandle
  cases s.animationTimeout
  · simp
  · simp only [clearTimeoutOp]
    exact List.length_filter_le _ _

/-- The cancel step keeps an empty timer set empty. -/
theorem cancelViaHandle_pendingTimers_nil (s : St I) (hp : s.pendingTimers = []) :
    (cancelViaHandle s).pendingTimers = [] := by
  unfold cancelViaHandle
  cases s.animationTimeout <;> simp [clearTimeoutOp, hp]

/-- Full state equation for the armed fallback initialisation (branch 2
with more than one window element and no timer previously pending). -/
theorem init_fallback_armed (s : St I) (d : I) (h0 : ¬ s.cfg.items.length = 0)
    (hd : s.cfg.defaultItem = some d) (hen : s.cfg.isAnimationEnabled = true)
    (hflag : s.isShowDefaultItemBefore = true) (hp : s.pendingTimers = []) :
    init s = { s with
      copiedItems := d :: computeCopied s.cfg.items s.cfg.startIndex
      animationTimeout := some s.nextId
      pendingTimers := [⟨s.nextId, d :: computeCopied s.cfg.items s.cfg.startIndex,
        jsRem s.cfg.startIndex s.cfg.items.length, armDelay s.cfg (some 100)⟩]
      nextId := s.nextId + 1 } := by
  have hne : s.cfg.items ≠ [] := by
    intro hcon
    exact h0 (by rw [hcon]; rfl)
  have hlen : 1 < (d :: computeCopied s.cfg.items s.cfg.startIndex).length := by
    rw [List.length_cons, computeCopied_length _ _ hne]
    omega
  rw [init_fallback s d h0 hd hen hflag,
    startAnimation_arm _ _ _ _ (by simpa using hen) hlen]
  simp [cancelViaHandle_pendingTimers_nil s hp]

/-- Full state equation for the armed normal initialisation (branch 3 with
more than one item and no timer previously pending). -/
theorem init_normal_armed (s : St I) (hgt : 1 < s.cfg.items.length)
    (hen : s.cfg.isAnimationEnabled = true)
    (h13 : s.cfg.defaultItem = none ∨ s.isShowDefaultItemBefore = false)
    (hp : s.pendingTimers = []) :
    init s = { s with
      copiedItems := computeCopied s.cfg.items s.cfg.startIndex
      animationTimeout := some s.nextId
      pendingTimers := [⟨s.nextId, computeCopied s.cfg.items s.cfg.startIndex,
        s.cfg.startIndex, s.cfg.displayTime⟩]
      nextId := s.nextId + 1
      shows := s.shows
        ++ [((computeCopied s.cfg.items s.cfg.startIndex).head?, s.cfg.startIndex)] } := by
  have h0 : ¬ s.cfg.items.length = 0 := by omega
  have hne : s.cfg.items ≠ [] := by
    intro hcon
    exact h0 (by rw [hcon]; rfl)
  have hlen : 1 < (computeCopied s.cfg.items s.cfg.startIndex).length := by
    rw [computeCopied_length _ _ hne]
    omega
  rw [init_normal s h0 hen h13, if_pos hgt,
    startAnimation_arm _ _ _ _ (by simpa using hen) hlen]
  simp [cancelViaHandle_pendingTimers_nil s hp]

/-- One happy-path advance on a normally armed state: the timer fires, the
animation completes, the window shifts cyclically by one, the observer gets
the new head together with `(counter + 1) % windowLength`, and the
scheduler is re-armed with `counter + 1`. -/
theorem advanceOnce_normal (s : St I) (w : List I) (c : Int) (tid dly : Nat)
    (hT : s.pendingTimers = [⟨tid, w, c, dly⟩]) (ha : s.anims = [])
    (hf : s.isShowDefaultItemBefore = false)
    (hen : s.cfg.isAnimationEnabled = true) (hw : 1 < w.length) :
    advanceOnce s = { s with
      copiedItems := w.drop 1 ++ w.take 1
      animationTimeout := some s.nextId
      pendingTimers := [⟨s.nextId, w.drop 1 ++ w.take 1, c + 1, s.cfg.displayTime⟩]
      nextId := s.nextId + 1
      shows := s.shows ++ [((w.drop 1 ++ w.take 1).head?, jsRem (c + 1) w.length)] } := by
  have hlen : 1 < (w.drop 1 ++ w.take 1).length := by
    simp only [List.length_append, List.length_drop, List.length_take]
    omega
  unfold advanceOnce
  rw [fireAt_singleton s _ hT]
  rw [completeAt_singleton _ ⟨w, c⟩ (by simpa using ha)]
  rw [onAnimationDone_eq]
  simp only [doneState, hf, if_false, Bool.false_eq_true]
  rw [if_pos hlen]
  rw [startAnimation_arm _ _ _ _ (by simpa using hen) hlen]
  simp [hf, ha]

/-- One advance on a state armed while the default item is showing: same as
the normal advance, except the shifted window loses its last element (the
default item), the notified counter is decremented by one, and the flag is
cleared — the re-arm counter is still the undecremented `counter + 1`. -/
theorem advanceOnce_fallback (s : St I) (w : List I) (c : Int) (tid dly : Nat)
    (hT : s.pendingTimers = [⟨tid, w, c, dly⟩]) (ha : s.anims = [])
    (hf : s.isShowDefaultItemBefore = true)
    (hen : s.cfg.isAnimationEnabled = true) (hw : 2 < w.length) :
    advanceOnce s = { s with
      copiedItems := (w.drop 1 ++ w.take 1).dropLast
      isShowDefaultItemBefore := false
      animationTimeout := some s.nextId
      pendingTimers := [⟨s.nextId, (w.drop 1 ++ w.take 1).dropLast, c + 1,
        s.cfg.displayTime⟩]
      nextId := s.nextId + 1
      shows := s.shows
        ++ [((w.drop 1 ++ w.take 1).dropLast.head?, jsRem (c + 1) w.length - 1)] } := by
  have hlen : 1 < (w.drop 1 ++ w.take 1).dropLast.length := by
    simp only [List.length_dropLast, List.length_append, List.length_drop,
      List.length_take]
    omega
  unfold advanceOnce
  rw [fireAt_singleton s _ hT]
  rw [completeAt_singleton _ ⟨w, c⟩ (by simpa using ha)]
  rw [onAnimationDone_eq]
  simp only [doneState, hf, if_true]
  rw [if_pos hlen]
  rw [startAnimation_arm _ _ _ _ (by simpa using hen) hlen]
  simp [ha]

/-- The window the source computes for a one-element collection is the
collection itself. -/
theorem computeCopied_singleton (items : List I) (off : Int)
    (h : items.length = 1) : computeCopied items off = items := by
  have hne : items ≠ [] := by
    cases items
    · simp at h
    · simp
  rw [computeCopied_eq_rotate items off hne, h]
  simp [Int.emod_one]

/-! ### Concrete configurations used by the counterexamples -/

/-- A concrete configuration over `Nat` items with the source's default
dwell time and animation duration. -/
def cfgN (its : List Nat) (d : Option Nat) (en : Bool) (si : Int) : Config Nat :=
  ⟨its, d, 3000, en, 250, si⟩

/-- A mount that shows only the default item (empty collection), the first
half of the fallback scenario. -/
def emptyMount : St Nat := initialState (cfgN [] (some 9) true 0)

/-- The fallback scenario continues: the collection becomes `[0, 1]`. -/
def fallbackSt : St Nat := reinit (cfgN [0, 1] (some 9) true 0) emptyMount

/-- The fallback transition completes. -/
def fallbackDoneSt : St Nat := advanceOnce fallbackSt

/-- The advance after the fallback transition completes. -/
def fallbackNextSt : St Nat := advanceOnce fallbackDoneSt

/-- A plain two-item mount. -/
def twoMount : St Nat := initialState (cfgN [0, 1] none true 0)

/-- The pending timer of the two-item mount fires; the animation it starts
is now in flight. -/
def twoFired : St Nat := fireAt twoMount 0

/-- While that animation is still in flight, the collection is replaced
(with an equal list — any prop change re-runs `init`), arming a new timer. -/
def twoReset : St Nat := reinit (cfgN [0, 1] none true 0) twoFired

/-- The pre-reset animation now completes, and its completion handler arms
one more timer on top of the one armed by the re-initialisation. -/
def twoStale : St Nat := completeAt twoReset 0

/-- A single real item arrives while the default item is showing. -/
def oneAfterDefault : St Nat := reinit (cfgN [5] (some 9) true 0) emptyMount

/-- A one-item mount whose collection is then replaced by an empty one with
no default item. -/
def emptiedSt : St Nat := reinit (cfgN [] none true 0) (initialState (cfgN [7] none true 0))

/-! ### C1 -/

/-- C1 counterexample: with `items = [10, 20, 30]` and `startOffset = 5`,
`init` itself calls the observer with counter `5`, and `5` is not below the
collection length `3` — the raw, unreduced start offset is passed (line 96
of the source). -/
theorem observer_counter_out_of_range_cx :
    (initialState (cfgN [10, 20, 30] none true 5)).shows = [(some 30, 5)] ∧
    ¬ ((5 : Int) < 3) := by decide

/-! ### C2 -/

/-- C2 counterexample: with animation disabled and the non-empty collection
`[5]`, `init` neither computes the Rotation Window (it stays `[]`, not the
claimed `rotation([5], 0) = [5]`) nor notifies the observer. -/
theorem disabled_no_window_cx :
    (initialState (cfgN [5] none false 0)).copiedItems = [] ∧
    (initialState (cfgN [5] none false 0)).shows = [] ∧
    computeCopied [5] (0 : Int) = [5] := by decide

/-! ### C3 -/

/-- C3 counterexample: in the fallback scenario (`items` goes from `[]`
with default `9` to `[0, 1]`, `startOffset = 0`), the completion of the
fallback transition notifies `(0, 0)` as the claim says, but the advance
that follows notifies counter `0`, not the claimed
`(startOffset + 1) mod 2 = 1` — the scheduler was re-armed with the
undecremented `counter + 1`. -/
theorem fallback_rearm_counter_cx :
    fallbackNextSt.shows = [(some 0, 0), (some 1, 0)] ∧
    ¬ ((0 : Int) = (0 + 1) % 2) := by decide

/-! ### C4 -/

/-- C4 counterexample: (a) when the animation started before a
re-initialisation completes after it, its completion handler arms a second
timer on top of the one armed by the re-initialisation — two scheduled
advances are pending at once; (b) `clear()` cancels the pending timer but
leaves the handle set (line 162 has no `= null`). -/
theorem pending_timer_cx :
    twoStale.pendingTimers.length = 2 ∧
    (clear twoMount).animationTimeout = some 1 ∧
    (clear twoMount).pendingTimers = [] := by decide

/-! ### C5 -/

/-- C5 counterexample: with exactly one real item arriving while the
default item is showing (animation enabled), `init` prepends the default
item, obtaining a two-element window, and arms the scheduler — even though
`len(items) = 1`. -/
theorem singleton_armed_cx :
    (cfgN [5] (some 9) true 0).items.length = 1 ∧
    oneAfterDefault.pendingTimers.length = 1 := by decide

/-! ### C8 -/

/-- C8 counterexample: when a previously non-empty collection (`[7]`) is
replaced by an empty one with no default item, the Rotation Window is not
emptied — it still holds the old item. -/
theorem emptied_window_not_empty_cx :
    emptiedSt.copiedItems = [7] ∧ ([7] : List Nat) ≠ [] := by decide

/-- C8 (amended): (re)initialising with an empty collection and no default
item raises no error (the transformer is total), issues no notification,
arms no new timer, and leaves the Rotation Window, the default-item flag
and the notification log untouched; on a fresh mount the window is
therefore empty.  The original claim's "the Rotation Window is empty" only
holds on the fresh mount — a previously non-empty window is retained, as
the counterexample shows. -/
theorem empty_no_default_inert (cfg : Config I) (s : St I)
    (h0 : s.cfg.items.length = 0) (h1 : s.cfg.defaultItem = none)
    (hc0 : cfg.items.length = 0) (hc1 : cfg.defaultItem = none) :
    (init s).copiedItems = s.copiedItems ∧
    (init s).shows = s.shows ∧
    (init s).isShowDefaultItemBefore = s.isShowDefaultItemBefore ∧
    (init s).pendingTimers.length ≤ s.pendingTimers.length ∧
    (initialState cfg).copiedItems = [] ∧
    (initialState cfg).shows = [] ∧
    (initialState cfg).pendingTimers = [] := by
  have he := init_empty_none s h0 h1
  have hm : initialState cfg = cancelViaHandle (mkSt cfg) :=
    init_empty_none (mkSt cfg) hc0 hc1
  rw [he, hm]
  refine ⟨by simp, by simp, by simp, cancelViaHandle_pendingTimers_length s,
    by simp [mkSt], by simp [mkSt], cancelViaHandle_pendingTimers_nil _ rfl⟩

/-- C8 witness: the degenerate configuration at a concrete mount. -/
theorem empty_no_default_inert_w :
    ((mkSt (cfgN [] none true 0)).cfg.items.length = 0 ∧
      (mkSt (cfgN [] none true 0)).cfg.defaultItem = none ∧
      (cfgN [] none true 0).items.length = 0 ∧
      (cfgN [] none true 0).defaultItem = none) ∧
    ((init (mkSt (cfgN [] none true 0))).copiedItems
        = (mkSt (cfgN [] none true 0)).copiedItems ∧
      (init (mkSt (cfgN [] none true 0))).shows = (mkSt (cfgN [] none true 0)).shows ∧
      (init (mkSt (cfgN [] none true 0))).isShowDefaultItemBefore
        = (mkSt (cfgN [] none true 0)).isShowDefaultItemBefore ∧
      (init (mkSt (cfgN [] none true 0))).pendingTimers.length
        ≤ (mkSt (cfgN [] none true 0)).pendingTimers.length ∧
      (initialState (cfgN [] none true 0)).copiedItems = [] ∧
      (initialState (cfgN [] none true 0)).shows = [] ∧
      (initialState (cfgN [] none true 0)).pendingTimers = []) :=
  ⟨⟨by decide, by decide, by decide, by decide⟩,
    empty_no_default_inert (cfgN [] none true 0) (mkSt (cfgN [] none true 0))
      (by decide) (by decide) (by decide) (by decide)⟩

/-! ### C2 amended -/

/-- C2 (amended): with animation disabled and a non-empty collection, the
initializer does not recompute the Rotation Window and does not notify the
observer (contrary to the original claim, which said both still happen);
the claim's timer half is right and strengthens to: every state reachable
from such a mount by timer fires, animation completions and `clear()` has
an empty window, an empty notification log, no pending timer and no
animation in flight. -/
theorem disabled_static (cfg : Config I) (s : St I)
    (hne : ¬ cfg.items.length = 0) (hen : cfg.isAnimationEnabled = false)
    (h : RunReach (initialState cfg) s) :
    s.copiedItems = [] ∧ s.shows = [] ∧ s.pendingTimers = [] ∧ s.anims = [] := by
  have hstart : initialState cfg = mkSt cfg := by
    unfold initialState
    rw [init_disabled (mkSt cfg) hne hen]
    rfl
  suffices hs : s = mkSt cfg by
    rw [hs]
    exact ⟨rfl, rfl, rfl, rfl⟩
  rw [hstart] at h
  unfold RunReach at h
  induction h with
  | refl => rfl
  | tail hab hbc ih =>
    subst ih
    cases hbc with
    | fire i hi => simp [mkSt] at hi
    | done i hi => simp [mkSt] at hi
    | clearStep => rfl

/-- C2 witness: the disabled one-item mount, at the mount state itself. -/
theorem disabled_static_w :
    (¬ (cfgN [5] none false 0).items.length = 0 ∧
      (cfgN [5] none false 0).isAnimationEnabled = false ∧
      RunReach (initialState (cfgN [5] none false 0))
        (initialState (cfgN [5] none false 0))) ∧
    ((initialState (cfgN [5] none false 0)).copiedItems = [] ∧
      (initialState (cfgN [5] none false 0)).shows = [] ∧
      (initialState (cfgN [5] none false 0)).pendingTimers = [] ∧
      (initialState (cfgN [5] none false 0)).anims = []) :=
  ⟨⟨by decide, by decide, Relation.ReflTransGen.refl⟩,
    disabled_static (cfgN [5] none false 0) (initialState (cfgN [5] none false 0))
      (by decide) (by decide) Relation.ReflTransGen.refl⟩

/-! ### C5 amended -/

/-- Helper: when the fallback-arming condition fails and no timer is
pending, a `len(items) ≤ 1` initialisation arms nothing. -/
theorem init_noarm_timers (s : St I) (hp : s.pendingTimers = [])
    (hle : s.cfg.items.length ≤ 1)
    (hnofb : ¬ (s.cfg.items.length = 1 ∧ s.cfg.defaultItem.isSome = true
      ∧ s.cfg.isAnimationEnabled = true ∧ s.isShowDefaultItemBefore = true)) :
    (init s).pendingTimers = [] := by
  have hc := cancelViaHandle_pendingTimers_nil s hp
  by_cases h0 : s.cfg.items.length = 0
  · cases hd : s.cfg.defaultItem with
    | none => rw [init_empty_none s h0 hd]; exact hc
    | some d => rw [init_empty_some s d h0 hd]; exact hc
  · have h1 : s.cfg.items.length = 1 := by omega
    cases hen : s.cfg.isAnimationEnabled with
    | false => rw [init_disabled s h0 hen]; exact hc
    | true =>
      cases hflag : s.isShowDefaultItemBefore with
      | true =>
        cases hd : s.cfg.defaultItem with
        | some d => exact absurd ⟨h1, by rw [hd]; rfl, hen, hflag⟩ hnofb
        | none =>
          rw [init_normal s h0 hen (Or.inl hd), if_neg (by omega)]
          exact hc
      | false =>
        rw [init_normal s h0 hen (Or.inr hflag), if_neg (by omega)]
        exact hc

/-- C5 (amended): with `len(items) ≤ 1`, no pending timer and nothing in
flight, the initializer arms the scheduler exactly when the fallback
transition runs — exactly one item, a default item present, animation
enabled, and the default item showing (the case the original claim
explicitly ruled out and the code performs); and even then, once that one
fallback transition fires and completes, the window is a single element and
nothing further is ever armed. -/
theorem singleton_arm_exactly_fallback (s : St I)
    (hle : s.cfg.items.length ≤ 1) (hp : s.pendingTimers = [])
    (ha : s.anims = []) :
    ((init s).pendingTimers ≠ [] ↔
      (s.cfg.items.length = 1 ∧ s.cfg.defaultItem.isSome = true
        ∧ s.cfg.isAnimationEnabled = true ∧ s.isShowDefaultItemBefore = true)) ∧
    (advanceOnce (init s)).pendingTimers = [] := by
  have hanims : (init s).anims = [] := by rw [init_anims]; exact ha
  by_cases hfb : s.cfg.items.length = 1 ∧ s.cfg.defaultItem.isSome = true
      ∧ s.cfg.isAnimationEnabled = true ∧ s.isShowDefaultItemBefore = true
  · obtain ⟨h1, hdS, hen, hflag⟩ := hfb
    obtain ⟨d, hd⟩ := Option.isSome_iff_exists.mp hdS
    have h0 : ¬ s.cfg.items.length = 0 := by omega
    have hcop := computeCopied_singleton s.cfg.items s.cfg.startIndex h1
    have hif := init_fallback s d h0 hd hen hflag
    have hT : (init s).pendingTimers
        = [⟨s.nextId, d :: computeCopied s.cfg.items s.cfg.startIndex,
            jsRem s.cfg.startIndex s.cfg.items.length,
            armDelay s.cfg (some 100)⟩] := by
      rw [hif, startAnimation_arm _ _ _ _ (by simpa using hen)
        (by rw [hcop]; simp [h1])]
      simp [cancelViaHandle_pendingTimers_nil s hp]
    have hflag' : (init s).isShowDefaultItemBefore = true := by
      rw [hif]
      simpa using hflag
    refine ⟨⟨fun _ => ⟨h1, hdS, hen, hflag⟩, fun _ => by rw [hT]; simp⟩, ?_⟩
    unfold advanceOnce
    rw [fireAt_singleton (init s) _ hT]
    rw [completeAt_singleton _
      ⟨d :: computeCopied s.cfg.items s.cfg.startIndex,
        jsRem s.cfg.startIndex s.cfg.items.length⟩ (by simp [ha])]
    rw [onAnimationDone_noRearm]
    · simp [hflag']
    · rw [hcop]
      simp [h1]
  · have hT := init_noarm_timers s hp hle hfb
    refine ⟨⟨fun hne => absurd hT hne, fun hr => absurd hr hfb⟩, ?_⟩
    unfold advanceOnce
    rw [fireAt_nil _ hT 0, completeAt_nil _ hanims 0]
    exact hT

/-- C5 witness: the fallback arming at the concrete one-item scenario. -/
theorem singleton_arm_exactly_fallback_w :
    (({ emptyMount with cfg := cfgN [5] (some 9) true 0 } : St Nat).cfg.items.length ≤ 1 ∧
      ({ emptyMount with cfg := cfgN [5] (some 9) true 0 } : St Nat).pendingTimers = [] ∧
      ({ emptyMount with cfg := cfgN [5] (some 9) true 0 } : St Nat).anims = []) ∧
    (((init { emptyMount with cfg := cfgN [5] (some 9) true 0 }).pendingTimers ≠ [] ↔
      (({ emptyMount with cfg := cfgN [5] (some 9) true 0 } : St Nat).cfg.items.length = 1 ∧
        ({ emptyMount with cfg := cfgN [5] (some 9) true 0 } : St Nat).cfg.defaultItem.isSome = true ∧
        ({ emptyMount with cfg := cfgN [5] (some 9) true 0 } : St Nat).cfg.isAnimationEnabled = true ∧
        ({ emptyMount with cfg := cfgN [5] (some 9) true 0 } : St Nat).isShowDefaultItemBefore = true)) ∧
      (advanceOnce (init { emptyMount with cfg := cfgN [5] (some 9) true 0 })).pendingTimers = []) :=
  ⟨⟨by decide, by decide, by decide⟩,
    singleton_arm_exactly_fallback { emptyMount with cfg := cfgN [5] (some 9) true 0 }
      (by decide) (by decide) (by decide)⟩

/-! ### C3 amended -/

/-- Shifting a cons window once and popping drops the prepended head. -/
theorem shift_cons_dropLast (d : I) (l : List I) :
    ((d :: l).drop 1 ++ (d :: l).take 1).dropLast = l := by
  simp [List.dropLast_concat]

/-- C3 (amended): when the fallback transition completes (non-empty
collection of `n ≥ 2` items, in-range startOffset, default item present,
animation enabled, Was-Showing-Default set), the default item is dropped
from the shifted window, the flag is cleared, and the observer is notified
with the first real item and counter `startOffset` — all as the original
claim says; but the scheduler is re-armed with the undecremented
`counter + 1 = startOffset + 1`, so the advance that follows notifies the
observer with counter `(startOffset + 2) mod n` while displaying item
`(startOffset + 1) mod n`, not the claimed `(startOffset + 1) mod n`
counter. -/
theorem fallback_rearm_amended (s : St I) (d : I)
    (hd : s.cfg.defaultItem = some d) (hen : s.cfg.isAnimationEnabled = true)
    (hflag : s.isShowDefaultItemBefore = true)
    (hn : 2 ≤ s.cfg.items.length)
    (hk0 : 0 ≤ s.cfg.startIndex)
    (hk1 : s.cfg.startIndex < (s.cfg.items.length : Int))
    (hp : s.pendingTimers = []) (ha : s.anims = []) :
    (advanceOnce (init s)).copiedItems = computeCopied s.cfg.items s.cfg.startIndex ∧
    (advanceOnce (init s)).isShowDefaultItemBefore = false ∧
    (advanceOnce (init s)).shows.getLast?
      = some (s.cfg.items[s.cfg.startIndex.toNat]?, s.cfg.startIndex) ∧
    (advanceOnce (init s)).pendingTimers
      = [⟨s.nextId + 1, computeCopied s.cfg.items s.cfg.startIndex,
          s.cfg.startIndex + 1, s.cfg.displayTime⟩] ∧
    (advanceOnce (advanceOnce (init s))).shows.getLast?
      = some (s.cfg.items[(s.cfg.startIndex.toNat + 1) % s.cfg.items.length]?,
          jsRem (s.cfg.startIndex + 2) s.cfg.items.length) := by
  have h0 : ¬ s.cfg.items.length = 0 := by omega
  have hne : s.cfg.items ≠ [] := by
    intro hcon
    exact h0 (by rw [hcon]; rfl)
  have hnpos : 0 < s.cfg.items.length := by omega
  have hsIdx : jsRem s.cfg.startIndex s.cfg.items.length = s.cfg.startIndex :=
    jsRem_of_inrange _ _ hk0 hk1
  have hclen : (computeCopied s.cfg.items s.cfg.startIndex).length
      = s.cfg.items.length := computeCopied_length _ _ hne
  have hrot : computeCopied s.cfg.items s.cfg.startIndex
      = s.cfg.items.rotate ((s.cfg.startIndex % (s.cfg.items.length : Int)).toNat) :=
    computeCopied_eq_rotate _ _ hne
  have hkmod : s.cfg.startIndex % (s.cfg.items.length : Int) = s.cfg.startIndex :=
    Int.emod_eq_of_lt hk0 hk1
  have hIF := init_fallback_armed s d h0 hd hen hflag hp
  rw [hsIdx] at hIF
  have hA1 := advanceOnce_fallback (init s)
    (d :: computeCopied s.cfg.items s.cfg.startIndex) s.cfg.startIndex
    s.nextId (armDelay s.cfg (some 100))
    (by rw [hIF]) (by rw [init_anims]; exact ha)
    (by rw [hIF]; simpa using hflag) (by simpa using hen)
    (by simp only [List.length_cons, hclen]; omega)
  rw [shift_cons_dropLast] at hA1
  have hwlen : (d :: computeCopied s.cfg.items s.cfg.startIndex).length
      = s.cfg.items.length + 1 := by
    simp [hclen]
  have hidx1 : jsRem (s.cfg.startIndex + 1)
      (d :: computeCopied s.cfg.items s.cfg.startIndex).length - 1
      = s.cfg.startIndex := by
    rw [hwlen, jsRem_of_inrange _ _ (by omega) (by push_cast; omega)]
    omega
  have hhead1 : (computeCopied s.cfg.items s.cfg.startIndex).head?
      = s.cfg.items[s.cfg.startIndex.toNat]? := by
    rw [hrot, head?_rotate_mod _ _ hne, hkmod,
      Nat.mod_eq_of_lt (by omega : s.cfg.startIndex.toNat < s.cfg.items.length)]
  have hS1 : (init s).nextId = s.nextId + 1 := by rw [hIF]
  have hS1cfg : (init s).cfg = s.cfg := init_cfg s
  refine ⟨?_, ?_, ?_, ?_, ?_⟩
  · rw [hA1]
  · rw [hA1]
  · rw [hA1]
    simp only [hidx1, hhead1]
    rw [hIF]
    simp [List.getLast?_concat]
  · rw [hA1, hIF]
  · -- the advance that follows the fallback completion
    have hA2 := advanceOnce_normal (advanceOnce (init s))
      (computeCopied s.cfg.items s.cfg.startIndex) (s.cfg.startIndex + 1)
      ((init s).nextId) ((init s).cfg.displayTime)
      (by rw [hA1]) (by rw [hA1]; simpa using ha)
      (by rw [hA1]) (by rw [hA1]; simpa using hen)
      (by rw [hclen]; omega)
    rw [hA2]
    have hshift : (computeCopied s.cfg.items s.cfg.startIndex).drop 1
        ++ (computeCopied s.cfg.items s.cfg.startIndex).take 1
        = s.cfg.items.rotate (s.cfg.startIndex.toNat + 1) := by
      rw [hrot, hkmod, ← List.rotate_eq_drop_append_take
        (by rw [List.length_rotate]; omega : 1 ≤ (s.cfg.items.rotate s.cfg.startIndex.toNat).length),
        List.rotate_rotate]
    rw [hshift, head?_rotate_mod _ _ hne]
    have : s.cfg.startIndex + 1 + 1 = s.cfg.startIndex + 2 := by ring
    rw [hclen, this]
    simp [List.getLast?_concat]

/-- The state from which the fallback scenario of the counterexamples
starts: the empty mount whose `items` prop just became `[0, 1]`. -/
def fallbackPre : St Nat := { emptyMount with cfg := cfgN [0, 1] (some 9) true 0 }

/-- C3 witness: the amended fallback behaviour at the concrete scenario
(`items = [0, 1]`, default `9`, `startOffset = 0`). -/
theorem fallback_rearm_amended_w :
    (fallbackPre.cfg.defaultItem = some 9 ∧
      fallbackPre.cfg.isAnimationEnabled = true ∧
      fallbackPre.isShowDefaultItemBefore = true ∧
      2 ≤ fallbackPre.cfg.items.length ∧
      0 ≤ fallbackPre.cfg.startIndex ∧
      fallbackPre.cfg.startIndex < (fallbackPre.cfg.items.length : Int) ∧
      fallbackPre.pendingTimers = [] ∧ fallbackPre.anims = []) ∧
    ((advanceOnce (init fallbackPre)).copiedItems
        = computeCopied fallbackPre.cfg.items fallbackPre.cfg.startIndex ∧
      (advanceOnce (init fallbackPre)).isShowDefaultItemBefore = false ∧
      (advanceOnce (init fallbackPre)).shows.getLast?
        = some (fallbackPre.cfg.items[fallbackPre.cfg.startIndex.toNat]?,
            fallbackPre.cfg.startIndex) ∧
      (advanceOnce (init fallbackPre)).pendingTimers
        = [⟨fallbackPre.nextId + 1,
            computeCopied fallbackPre.cfg.items fallbackPre.cfg.startIndex,
            fallbackPre.cfg.startIndex + 1, fallbackPre.cfg.displayTime⟩] ∧
      (advanceOnce (advanceOnce (init fallbackPre))).shows.getLast?
        = some (fallbackPre.cfg.items[(fallbackPre.cfg.startIndex.toNat + 1)
              % fallbackPre.cfg.items.length]?,
            jsRem (fallbackPre.cfg.startIndex + 2) fallbackPre.cfg.items.length)) :=
  ⟨⟨by decide, by decide, by decide, by decide, by decide, by decide, by decide,
      by decide⟩,
    fallback_rearm_amended fallbackPre 9 (by decide) (by decide) (by decide)
      (by decide) (by decide) (by decide) (by decide) (by decide)⟩

/-! ### C9: full-cycle idempotence -/

/-- Shifting a rotation once rotates one further. -/
theorem rotate_shift_one (l : List I) (m : Nat) (h : l ≠ []) :
    (l.rotate m).drop 1 ++ (l.rotate m).take 1 = l.rotate (m + 1) := by
  have h1 : 1 ≤ (l.rotate m).length := by
    rw [List.length_rotate]
    exact Nat.one_le_iff_ne_zero.mpr (fun hc => h (List.length_eq_zero.mp hc))
  rw [← List.rotate_eq_drop_append_take h1, List.rotate_rotate]

/-- Closed form of the happy path: starting from a normally armed mount
(`n ≥ 2` items, in-range startOffset, animation enabled), after `j`
successful advances the window is `items` rotated by `startOffset + j`, one
timer with counter `startOffset + j` is pending, and the last notification
carried the window head and `(startOffset + j) % n`. -/
theorem happy_path_closed (cfg : Config I) (hn : 2 ≤ cfg.items.length)
    (hen : cfg.isAnimationEnabled = true) (hk0 : 0 ≤ cfg.startIndex)
    (hk1 : cfg.startIndex < (cfg.items.length : Int)) (j : Nat) :
    ∃ pre : List (Option I × Int),
      advanceOnce^[j] (initialState cfg) = { mkSt cfg with
        copiedItems := cfg.items.rotate (cfg.startIndex.toNat + j)
        animationTimeout := some (j + 1)
        pendingTimers := [⟨j + 1, cfg.items.rotate (cfg.startIndex.toNat + j),
          cfg.startIndex + j, cfg.displayTime⟩]
        nextId := j + 2
        shows := pre ++ [((cfg.items.rotate (cfg.startIndex.toNat + j)).head?,
          jsRem (cfg.startIndex + j) cfg.items.length)] } := by
  have hne : cfg.items ≠ [] := by
    intro hcon
    rw [hcon] at hn
    simp at hn
  have hrot : computeCopied cfg.items cfg.startIndex
      = cfg.items.rotate ((cfg.startIndex % (cfg.items.length : Int)).toNat) :=
    computeCopied_eq_rotate _ _ hne
  have hkmod : cfg.startIndex % (cfg.items.length : Int) = cfg.startIndex :=
    Int.emod_eq_of_lt hk0 hk1
  have hsIdx : jsRem cfg.startIndex cfg.items.length = cfg.startIndex :=
    jsRem_of_inrange _ _ hk0 hk1
  induction j with
  | zero =>
    refine ⟨[], ?_⟩
    have h0 := init_normal_armed (mkSt cfg)
      (by show 1 < cfg.items.length; omega) hen (Or.inr rfl) rfl
    rw [Function.iterate_zero_apply]
    unfold initialState
    rw [h0]
    simp [mkSt, hrot, hkmod, hsIdx]
  | succ j ih =>
    obtain ⟨pre, hj⟩ := ih
    have hadv := advanceOnce_normal (advanceOnce^[j] (initialState cfg))
      (cfg.items.rotate (cfg.startIndex.toNat + j)) (cfg.startIndex + j)
      (j + 1) cfg.displayTime (by rw [hj]) (by rw [hj]; simp [mkSt])
      (by rw [hj]; simp [mkSt]) (by rw [hj]; simp [mkSt, hen])
      (by rw [List.length_rotate]; omega)
    rw [Function.iterate_succ_apply', hadv, hj]
    refine ⟨pre ++ [((cfg.items.rotate (cfg.startIndex.toNat + j)).head?,
      jsRem (cfg.startIndex + j) cfg.items.length)], ?_⟩
    rw [rotate_shift_one _ _ hne]
    simp only [List.length_rotate]
    have e1 : cfg.startIndex.toNat + j + 1 = cfg.startIndex.toNat + (j + 1) := by omega
    have e2 : cfg.startIndex + (j : Int) + 1 = cfg.startIndex + ((j : Nat) + 1 : Nat) := by
      push_cast
      ring
    rw [e1, e2]
    simp [mkSt]

/-- C9: for a mount with `n ≥ 2` items, an in-range startOffset and
animation enabled, after exactly `n` consecutive successful advances (each
a timer fire followed by the completion of the animation it started, with
no re-initialisation in between) the Visible Item — the window head —
equals the Visible Item at initialisation, and the observer's last
notification carries that same item together with the initial counter
(equal to the initial counter modulo `n`, the startOffset being in range). -/
theorem full_cycle_idempotent (cfg : Config I) (hn : 2 ≤ cfg.items.length)
    (hen : cfg.isAnimationEnabled = true) (hk0 : 0 ≤ cfg.startIndex)
    (hk1 : cfg.startIndex < (cfg.items.length : Int)) :
    (advanceOnce^[cfg.items.length] (initialState cfg)).copiedItems.head?
      = (initialState cfg).copiedItems.head? ∧
    (advanceOnce^[cfg.items.length] (initialState cfg)).shows.getLast?
      = some ((initialState cfg).copiedItems.head?, cfg.startIndex) := by
  have hne : cfg.items ≠ [] := by
    intro hcon
    rw [hcon] at hn
    simp at hn
  obtain ⟨pre, hN⟩ := happy_path_closed cfg hn hen hk0 hk1 cfg.items.length
  obtain ⟨pre0, h0⟩ := happy_path_closed cfg hn hen hk0 hk1 0
  rw [Function.iterate_zero_apply] at h0
  have hper : cfg.items.rotate (cfg.startIndex.toNat + cfg.items.length)
      = cfg.items.rotate (cfg.startIndex.toNat + 0) := by
    rw [← List.rotate_mod]
    rw [show (cfg.startIndex.toNat + cfg.items.length) % cfg.items.length
        = (cfg.startIndex.toNat + 0) % cfg.items.length by
      rw [Nat.add_zero, Nat.add_mod_right, Nat.mod_eq_of_lt (by omega)]]
    rw [List.rotate_mod]
  have hctr : jsRem (cfg.startIndex + (cfg.items.length : Nat))
      cfg.items.length = cfg.startIndex := by
    unfold jsRem
    rw [if_neg (by omega)]
    rw [Int.tmod_eq_emod (by omega) (by positivity)]
    rw [show cfg.startIndex + ((cfg.items.length : Nat) : Int)
        = cfg.startIndex + ((cfg.items.length : Nat) : Int) * 1 by ring]
    rw [Int.add_mul_emod_self_left, Int.emod_eq_of_lt hk0 hk1]
  constructor
  · rw [hN, h0]
    simp only [hper]
  · rw [hN, h0]
    simp only [hper, hctr, List.getLast?_concat]

/-- C9 witness: the three-item scenario of the spec (`items = [10, 20, 30]`,
`startOffset = 0`): three advances come back to the start. -/
theorem full_cycle_idempotent_w :
    (2 ≤ (cfgN [10, 20, 30] none true 0).items.length ∧
      (cfgN [10, 20, 30] none true 0).isAnimationEnabled = true ∧
      0 ≤ (cfgN [10, 20, 30] none true 0).startIndex ∧
      (cfgN [10, 20, 30] none true 0).startIndex
        < ((cfgN [10, 20, 30] none true 0).items.length : Int)) ∧
    ((advanceOnce^[(cfgN [10, 20, 30] none true 0).items.length]
          (initialState (cfgN [10, 20, 30] none true 0))).copiedItems.head?
        = (initialState (cfgN [10, 20, 30] none true 0)).copiedItems.head? ∧
      (advanceOnce^[(cfgN [10, 20, 30] none true 0).items.length]
          (initialState (cfgN [10, 20, 30] none true 0))).shows.getLast?
        = some ((initialState (cfgN [10, 20, 30] none true 0)).copiedItems.head?,
            (cfgN [10, 20, 30] none true 0).startIndex)) :=
  ⟨⟨by decide, by decide, by decide, by decide⟩,
    full_cycle_idempotent (cfgN [10, 20, 30] none true 0) (by decide) (by decide)
      (by decide) (by decide)⟩

/-! ### C6: startOver resets the visible item -/

/-- The initializer leaves the default-item flag alone whenever the
collection is non-empty. -/
theorem init_flag_of_nonempty (s : St I) (h0 : ¬ s.cfg.items.length = 0) :
    (init s).isShowDefaultItemBefore = s.isShowDefaultItemBefore := by
  unfold init
  split
  next h => exact absurd h h0
  next =>
    split
    · simp
    · split
      · split <;> simp
      · simp

/-- Run steps never change the configuration. -/
theorem runStep_cfg (s s' : St I) (h : RunStep s s') : s'.cfg = s.cfg := by
  cases h <;> simp

/-- Runs never change the configuration. -/
theorem runReach_cfg (s s' : St I) (h : RunReach s s') : s'.cfg = s.cfg := by
  induction h with
  | refl => rfl
  | tail hab hbc ih => rw [runStep_cfg _ _ hbc, ih]

/-- A lowered default-item flag stays lowered across the completion event. -/
theorem completeAt_flag_false (s : St I) (i : Nat)
    (hf : s.isShowDefaultItemBefore = false) :
    (completeAt s i).isShowDefaultItemBefore = false := by
  unfold completeAt
  cases h : s.anims[i]? with
  | none => simpa using hf
  | some a => simp

/-- A lowered default-item flag stays lowered along any run. -/
theorem runReach_flag_false (s s' : St I) (h : RunReach s s')
    (hf : s.isShowDefaultItemBefore = false) : s'.isShowDefaultItemBefore = false := by
  induction h with
  | refl => exact hf
  | tail hab hbc ih =>
    cases hbc with
    | fire i hi => simpa using ih
    | done i hi => exact completeAt_flag_false _ i ih
    | clearStep => simpa using ih

/-- C6: after any run from a mount with a non-empty collection and
animation enabled — any number of successful advances, timer fires and
`clear()` calls in any order — `startOver()` cancels pending work, re-runs
the initializer with the current parameters, and resets the Visible Item
(the window head, re-notified to the observer together with the configured
start offset) to `items[startOffset mod len(items)]`. -/
theorem startOver_resets (cfg : Config I) (s : St I)
    (h : RunReach (initialState cfg) s)
    (hne : cfg.items ≠ []) (hen : cfg.isAnimationEnabled = true) :
    (onStartOver s).copiedItems.head?
      = cfg.items[(cfg.startIndex % (cfg.items.length : Int)).toNat]? ∧
    (onStartOver s).shows.getLast?
      = some (cfg.items[(cfg.startIndex % (cfg.items.length : Int)).toNat]?,
          cfg.startIndex) := by
  have hnpos : 0 < cfg.items.length := List.length_pos.mpr hne
  have hcfg : s.cfg = cfg := by
    rw [runReach_cfg _ _ h]
    exact init_cfg (mkSt cfg)
  have hflag0 : (initialState cfg).isShowDefaultItemBefore = false := by
    unfold initialState
    rw [init_flag_of_nonempty _ (by show ¬ cfg.items.length = 0; omega)]
    rfl
  have hflag : s.isShowDefaultItemBefore = false := runReach_flag_false _ _ h hflag0
  have hhead : (computeCopied cfg.items cfg.startIndex).head?
      = cfg.items[(cfg.startIndex % (cfg.items.length : Int)).toNat]? := by
    rw [computeCopied_eq_rotate _ _ hne, head?_rotate_mod _ _ hne,
      Nat.mod_eq_of_lt (emod_toNat_lt _ _ hnpos)]
  have h0' : ¬ (clear s).cfg.items.length = 0 := by
    rw [clear_cfg, hcfg]
    omega
  have hen' : (clear s).cfg.isAnimationEnabled = true := by
    rw [clear_cfg, hcfg]
    exact hen
  have hf' : (clear s).isShowDefaultItemBefore = false := by
    rw [clear_flag]
    exact hflag
  unfold onStartOver
  rw [init_normal (clear s) h0' hen' (Or.inr hf')]
  constructor
  · split <;> simp [hcfg, hhead]
  · split <;> simp [hcfg, hhead, List.getLast?_concat]

/-- C6 witness: a two-item mount, at the mount state itself. -/
theorem startOver_resets_w :
    (RunReach (initialState (cfgN [10, 20] none true 0))
        (initialState (cfgN [10, 20] none true 0)) ∧
      (cfgN [10, 20] none true 0).items ≠ [] ∧
      (cfgN [10, 20] none true 0).isAnimationEnabled = true) ∧
    ((onStartOver (initialState (cfgN [10, 20] none true 0))).copiedItems.head?
        = (cfgN [10, 20] none true 0).items[((cfgN [10, 20] none true 0).startIndex
            % ((cfgN [10, 20] none true 0).items.length : Int)).toNat]? ∧
      (onStartOver (initialState (cfgN [10, 20] none true 0))).shows.getLast?
        = some ((cfgN [10, 20] none true 0).items[((cfgN [10, 20] none true 0).startIndex
              % ((cfgN [10, 20] none true 0).items.length : Int)).toNat]?,
            (cfgN [10, 20] none true 0).startIndex)) :=
  ⟨⟨Relation.ReflTransGen.refl, by decide, by decide⟩,
    startOver_resets (cfgN [10, 20] none true 0)
      (initialState (cfgN [10, 20] none true 0)) Relation.ReflTransGen.refl
      (by decide) (by decide)⟩

/-! ### C1 amended: counters stay in range for in-range start offsets -/

/-- Bounds of the JavaScript remainder of a non-negative dividend. -/
theorem jsRem_bounds (a : Int) (n : Nat) (hn : 0 < n) (ha : 0 ≤ a) :
    0 ≤ jsRem a n ∧ jsRem a n < (n : Int) := by
  unfold jsRem
  rw [if_neg (by omega)]
  exact ⟨Int.tmod_nonneg _ ha, Int.tmod_lt_of_pos _ (by exact_mod_cast hn)⟩

/-- The counter-range invariant: the configuration is fixed, the
default-item flag is down, every logged counter is in `[0, n)`, and every
captured payload (pending timer or in-flight animation) carries a window of
the collection's length and a non-negative counter. -/
def CtrInv (cfg : Config I) (s : St I) : Prop :=
  s.cfg = cfg ∧
  s.isShowDefaultItemBefore = false ∧
  (∀ p ∈ s.shows, 0 ≤ p.2 ∧ p.2 < (cfg.items.length : Int)) ∧
  (∀ t ∈ s.pendingTimers, t.lastItems.length = cfg.items.length ∧ 0 ≤ t.counter) ∧
  (∀ a ∈ s.anims, a.lastItems.length = cfg.items.length ∧ 0 ≤ a.counter)

/-- The counter-range invariant holds at a mount with an in-range start
offset. -/
theorem ctrInv_initial (cfg : Config I) (hne : cfg.items ≠ [])
    (hk0 : 0 ≤ cfg.startIndex) (hk1 : cfg.startIndex < (cfg.items.length : Int)) :
    CtrInv cfg (initialState cfg) := by
  have hnpos : 0 < cfg.items.length := List.length_pos.mpr hne
  have h0 : ¬ (mkSt cfg).cfg.items.length = 0 := by
    show ¬ cfg.items.length = 0
    omega
  cases hen : cfg.isAnimationEnabled with
  | false =>
    have hdis : initialState cfg = mkSt cfg := by
      unfold initialState
      rw [init_disabled _ h0 hen]
      rfl
    rw [hdis]
    exact ⟨rfl, rfl, by simp [mkSt], by simp [mkSt], by simp [mkSt]⟩
  | true =>
    by_cases hgt : 1 < cfg.items.length
    · have heq := init_normal_armed (mkSt cfg)
        (by show 1 < cfg.items.length; omega) hen (Or.inr rfl) rfl
      show CtrInv cfg (init (mkSt cfg))
      rw [heq]
      refine ⟨by simp [mkSt], by simp [mkSt], ?_, ?_, by simp [mkSt]⟩
      · intro p hp
        simp [mkSt] at hp
        subst hp
        exact ⟨hk0, hk1⟩
      · intro t ht
        simp [mkSt] at ht
        subst ht
        exact ⟨computeCopied_length _ _ hne, hk0⟩
    · have heq := init_normal (mkSt cfg) h0 hen (Or.inr rfl)
      rw [if_neg (by show ¬ (1 < cfg.items.length); omega)] at heq
      show CtrInv cfg (init (mkSt cfg))
      rw [heq]
      refine ⟨by simp [mkSt, cancelViaHandle], by simp [mkSt, cancelViaHandle], ?_,
        by simp [mkSt, cancelViaHandle], by simp [mkSt, cancelViaHandle]⟩
      intro p hp
      simp [mkSt, cancelViaHandle] at hp
      subst hp
      exact ⟨hk0, hk1⟩

/-- Arming preserves the counter-range invariant when the armed window has
the collection's length and the armed counter is non-negative. -/
theorem ctrInv_startAnimation (cfg : Config I) (s : St I) (w : List I)
    (c : Int) (f : Option Nat) (hinv : CtrInv cfg s)
    (hw : w.length = cfg.items.length) (hcpos : 0 ≤ c) :
    CtrInv cfg (startAnimation s w c f) := by
  obtain ⟨hc, hf, hsh, htm, han⟩ := hinv
  unfold startAnimation
  split
  · exact ⟨hc, hf, hsh, htm, han⟩
  · refine ⟨by simp [hc], by simp [hf], by simpa using hsh, ?_, by simpa using han⟩
    intro t ht
    simp at ht
    rcases ht with ht | ht
    · exact htm t ht
    · rw [ht]
      exact ⟨hw, hcpos⟩

/-- The completion callback preserves the counter-range invariant when the
flag is down, the completed window has the collection's length and the
completed counter is non-negative. -/
theorem ctrInv_doneState (cfg : Config I) (hne : cfg.items ≠ []) (s : St I)
    (w : List I) (c : Int) (hinv : CtrInv cfg s)
    (hw : w.length = cfg.items.length) (hcpos : 0 ≤ c) :
    CtrInv cfg (doneState s w c) := by
  have hnpos : 0 < cfg.items.length := List.length_pos.mpr hne
  obtain ⟨hc, hf, hsh, htm, han⟩ := hinv
  unfold doneState
  simp only [hf, Bool.false_eq_true, if_false]
  have hshiftlen : (w.drop 1 ++ w.take 1).length = cfg.items.length := by
    simp only [List.length_append, List.length_drop, List.length_take]
    omega
  have hidx : 0 ≤ jsRem (c + 1) w.length ∧
      jsRem (c + 1) w.length < (cfg.items.length : Int) := by
    rw [hw]
    exact jsRem_bounds _ _ hnpos (by omega)
  have hs1 : CtrInv cfg { s with
      isShowDefaultItemBefore := false
      shows := s.shows ++ [((w.drop 1 ++ w.take 1).head?, jsRem (c + 1) w.length)]
      copiedItems := w.drop 1 ++ w.take 1 } := by
    refine ⟨by simp [hc], by simp, ?_, by simpa using htm, by simpa using han⟩
    intro p hp
    simp at hp
    rcases hp with hp | hp
    · exact hsh p hp
    · rw [show p.2 = jsRem (c + 1) w.length by rw [hp]]
      exact hidx
  split
  · exact ctrInv_startAnimation cfg _ _ _ _ hs1 hshiftlen (by omega)
  · exact hs1

/-- Run steps preserve the counter-range invariant. -/
theorem ctrInv_step (cfg : Config I) (hne : cfg.items ≠ []) (s s' : St I)
    (hstep : RunStep s s') (hinv : CtrInv cfg s) : CtrInv cfg s' := by
  have hnpos : 0 < cfg.items.length := List.length_pos.mpr hne
  obtain ⟨hc, hf, hsh, htm, han⟩ := hinv
  cases hstep with
  | fire i hi =>
    unfold fireAt
    cases hg : s.pendingTimers[i]? with
    | none => exact ⟨hc, hf, hsh, htm, han⟩
    | some t =>
      have htmem : t ∈ s.pendingTimers := by
        have := List.getElem?_eq_some_iff.mp hg
        obtain ⟨hlt, hval⟩ := this
        rw [← hval]
        exact List.getElem_mem hlt
      refine ⟨by simp [hc], by simp [hf], by simpa using hsh, ?_, ?_⟩
      · intro t' ht'
        simp only [beginAnimation] at ht'
        exact htm t' (List.mem_of_mem_eraseIdx ht')
      · intro a hA
        simp only [beginAnimation] at hA
        rcases List.mem_append.mp hA with hA | hA
        · exact han a hA
        · have : a = ⟨t.lastItems, t.counter⟩ := by simpa using hA
          rw [this]
          exact htm t htmem
  | done i hi =>
    unfold completeAt
    cases hg : s.anims[i]? with
    | none => exact ⟨hc, hf, hsh, htm, han⟩
    | some a =>
      have hamem : a ∈ s.anims := by
        have := List.getElem?_eq_some_iff.mp hg
        obtain ⟨hlt, hval⟩ := this
        rw [← hval]
        exact List.getElem_mem hlt
      obtain ⟨halen, hapos⟩ := han a hamem
      dsimp only
      rw [onAnimationDone_eq]
      refine ctrInv_doneState cfg hne _ _ _ ?_ halen hapos
      refine ⟨by simp [hc], by simp [hf], by simpa using hsh, by simpa using htm, ?_⟩
      intro a' ha'
      simp only [List.mem_eraseIdx_iff_getElem?] at ha'
      exact han a' (by
        obtain ⟨j, hj1, hj2⟩ := ha'
        exact List.getElem?_mem hj2)
  | clearStep =>
    refine ⟨by simp [hc], by simp [hf], by simpa using hsh, ?_, by simpa using han⟩
    intro t ht
    unfold clear at ht
    rcases hh : s.animationTimeout with _ | id
    · rw [hh] at ht
      exact htm t ht
    · rw [hh] at ht
      simp only [clearTimeoutOp] at ht
      exact htm t (List.mem_of_mem_filter ht)

/-- C1 (amended): for a mount with a non-empty collection and an in-range
startOffset (`0 ≤ startOffset < len(items)`), every counter ever passed to
the observer — by the initializer or by any transition-completion handler,
over any run of timer fires, animation completions and `clear()` calls —
satisfies `0 ≤ counter < len(items)`.  For out-of-range startOffsets the
original claim fails: the initializer passes the raw offset through
(counterexample). -/
theorem observer_counter_in_range (cfg : Config I) (s : St I)
    (hne : cfg.items ≠ []) (hk0 : 0 ≤ cfg.startIndex)
    (hk1 : cfg.startIndex < (cfg.items.length : Int))
    (h : RunReach (initialState cfg) s) :
    ∀ p ∈ s.shows, 0 ≤ p.2 ∧ p.2 < (cfg.items.length : Int) := by
  suffices hinv : CtrInv cfg s by exact hinv.2.2.1
  unfold RunReach at h
  induction h with
  | refl => exact ctrInv_initial cfg hne hk0 hk1
  | tail hab hbc ih => exact ctrInv_step cfg hne _ _ hbc ih

/-- C1 witness: a two-item mount after one full advance. -/
theorem observer_counter_in_range_w :
    ((cfgN [10, 20] none true 0).items ≠ [] ∧
      0 ≤ (cfgN [10, 20] none true 0).startIndex ∧
      (cfgN [10, 20] none true 0).startIndex
        < ((cfgN [10, 20] none true 0).items.length : Int) ∧
      RunReach (initialState (cfgN [10, 20] none true 0))
        (initialState (cfgN [10, 20] none true 0))) ∧
    (∀ p ∈ (initialState (cfgN [10, 20] none true 0)).shows,
      0 ≤ p.2 ∧ p.2 < ((cfgN [10, 20] none true 0).items.length : Int)) :=
  ⟨⟨by decide, by decide, by decide, Relation.ReflTransGen.refl⟩,
    observer_counter_in_range (cfgN [10, 20] none true 0)
      (initialState (cfgN [10, 20] none true 0)) (by decide) (by decide)
      (by decide) Relation.ReflTransGen.refl⟩

/-! ### C4 amended: the pending-timer discipline -/

/-- The timer discipline: at most one live timer, every live timer is the
one the handle references, a live timer and an in-flight animation never
coexist, at most one animation is in flight, and every referenced id is
below the id supply. -/
def TimerInv (s : St I) : Prop :=
  s.pendingTimers.length ≤ 1 ∧
  (∀ t ∈ s.pendingTimers, s.animationTimeout = some t.id) ∧
  (s.anims ≠ [] → s.pendingTimers = []) ∧
  s.anims.length ≤ 1 ∧
  (∀ t ∈ s.pendingTimers, t.id < s.nextId) ∧
  (∀ id, s.animationTimeout = some id → id < s.nextId)

/-- When the handle covers every live timer, the initializer's cancel
leaves no live timer and a null handle. -/
theorem cancelViaHandle_covered (s : St I)
    (hcov : ∀ t ∈ s.pendingTimers, s.animationTimeout = some t.id) :
    (cancelViaHandle s).pendingTimers = [] ∧
    (cancelViaHandle s).animationTimeout = none := by
  unfold cancelViaHandle
  cases hh : s.animationTimeout with
  | none =>
    refine ⟨?_, hh⟩
    cases hts : s.pendingTimers with
    | nil => rfl
    | cons t ts =>
      have := hcov t (by rw [hts]; exact List.mem_cons_self t ts)
      rw [hh] at this
      exact Option.noConfusion this
  | some id =>
    refine ⟨?_, rfl⟩
    simp only [clearTimeoutOp]
    rw [List.filter_eq_nil_iff]
    intro t ht
    have := hcov t ht
    rw [hh] at this
    have hid : t.id = id := by
      injection this with h
      exact h.symm
    simp [hid]

/-- When the handle covers every live timer, `clear()` leaves no live
timer. -/
theorem clear_covered (s : St I)
    (hcov : ∀ t ∈ s.pendingTimers, s.animationTimeout = some t.id) :
    (clear s).pendingTimers = [] := by
  unfold clear
  cases hh : s.animationTimeout with
  | none =>
    cases hts : s.pendingTimers with
    | nil => rfl
    | cons t ts =>
      have := hcov t (by rw [hts]; exact List.mem_cons_self t ts)
      rw [hh] at this
      exact Option.noConfusion this
  | some id =>
    simp only [clearTimeoutOp]
    rw [List.filter_eq_nil_iff]
    intro t ht
    have := hcov t ht
    rw [hh] at this
    have hid : t.id = id := by
      injection this with h
      exact h.symm
    simp [hid]

/-- The timer discipline holds of any state with no timer and no animation
whose handle only references spent ids. -/
theorem timerInv_of_empty (s : St I) (hT : s.pendingTimers = [])
    (hA : s.anims = [])
    (hH : ∀ id, s.animationTimeout = some id → id < s.nextId) :
    TimerInv s :=
  ⟨by simp [hT], by simp [hT], fun _ => hT, by simp [hA], by simp [hT], hH⟩

/-- Arming from a cancelled state (no timer, no animation) restores the
timer discipline. -/
theorem timerInv_startAnimation (s : St I) (w : List I) (c : Int)
    (f : Option Nat) (hT : s.pendingTimers = []) (hA : s.anims = [])
    (hH : ∀ id, s.animationTimeout = some id → id < s.nextId) :
    TimerInv (startAnimation s w c f) := by
  unfold startAnimation
  split
  · exact timerInv_of_empty s hT hA hH
  · refine ⟨by simp [hT], ?_, ?_, by simp [hA], ?_, ?_⟩
    · intro t ht
      simp [hT] at ht
      subst ht
      rfl
    · intro hne
      simp [hA] at hne
    · intro t ht
      simp [hT] at ht
      subst ht
      simp
    · intro id hid
      simp at hid ⊢
      omega

/-- The initializer restores the timer discipline whenever the handle
covered the live timers and nothing was in flight. -/
theorem timerInv_init (s : St I) (hinv : TimerInv s) (hA : s.anims = []) :
    TimerInv (init s) := by
  obtain ⟨h1, hcov, h3, h4, h5, h6⟩ := hinv
  obtain ⟨hcT, hcH⟩ := cancelViaHandle_covered s hcov
  have hA' : (cancelViaHandle s).anims = [] := by
    rw [cancelViaHandle_anims]
    exact hA
  have hH0 : ∀ id, (cancelViaHandle s).animationTimeout = some id
      → id < (cancelViaHandle s).nextId := by
    intro id h
    rw [hcH] at h
    exact Option.noConfusion h
  by_cases h0 : s.cfg.items.length = 0
  · cases hd : s.cfg.defaultItem with
    | some d =>
      rw [init_empty_some s d h0 hd]
      exact timerInv_of_empty _ hcT hA' hH0
    | none =>
      rw [init_empty_none s h0 hd]
      exact timerInv_of_empty _ hcT hA' hH0
  · cases hen : s.cfg.isAnimationEnabled with
    | false =>
      rw [init_disabled s h0 hen]
      exact timerInv_of_empty _ hcT hA' hH0
    | true =>
      cases hflag : s.isShowDefaultItemBefore with
      | true =>
        cases hd : s.cfg.defaultItem with
        | some d =>
          rw [init_fallback s d h0 hd hen hflag]
          exact timerInv_startAnimation _ _ _ _ hcT hA' hH0
        | none =>
          rw [init_normal s h0 hen (Or.inl hd)]
          split
          · exact timerInv_startAnimation _ _ _ _ hcT hA' hH0
          · exact timerInv_of_empty _ hcT hA' hH0
      | false =>
        rw [init_normal s h0 hen (Or.inr hflag)]
        split
        · exact timerInv_startAnimation _ _ _ _ hcT hA' hH0
        · exact timerInv_of_empty _ hcT hA' hH0

/-- The fire event preserves the timer discipline. -/
theorem timerInv_fire (s : St I) (i : Nat) (hinv : TimerInv s) :
    TimerInv (fireAt s i) := by
  obtain ⟨h1, hcov, h3, h4, h5, h6⟩ := hinv
  unfold fireAt
  cases hg : s.pendingTimers[i]? with
  | none => exact ⟨h1, hcov, h3, h4, h5, h6⟩
  | some t =>
    dsimp only
    have hilt : i < s.pendingTimers.length :=
      (List.getElem?_eq_some_iff.mp hg).1
    have hTer : s.pendingTimers.eraseIdx i = [] := by
      have := List.length_eraseIdx (l := s.pendingTimers) (i := i)
      rw [if_pos hilt] at this
      exact List.length_eq_zero.mp (by omega)
    refine ⟨?_, ?_, ?_, ?_, ?_, ?_⟩
    · simp [beginAnimation, hTer]
    · intro t' ht'
      simp only [beginAnimation] at ht'
      rw [hTer] at ht'
      exact absurd ht' (List.not_mem_nil t')
    · intro _
      simpa [beginAnimation] using hTer
    · have hAnil : s.anims = [] := by
        by_contra hA
        have := h3 hA
        rw [this] at hg
        simp at hg
      simp [beginAnimation, hAnil]
    · intro t' ht'
      simp only [beginAnimation] at ht'
      rw [hTer] at ht'
      exact absurd ht' (List.not_mem_nil t')
    · intro id hid
      simp [beginAnimation] at hid

/-- The completion event preserves the timer discipline. -/
theorem timerInv_complete (s : St I) (i : Nat) (hinv : TimerInv s) :
    TimerInv (completeAt s i) := by
  obtain ⟨h1, hcov, h3, h4, h5, h6⟩ := hinv
  unfold completeAt
  cases hg : s.anims[i]? with
  | none => exact ⟨h1, hcov, h3, h4, h5, h6⟩
  | some a =>
    dsimp only
    have hilt : i < s.anims.length := (List.getElem?_eq_some_iff.mp hg).1
    have hAer : s.anims.eraseIdx i = [] := by
      have := List.length_eraseIdx (l := s.anims) (i := i)
      rw [if_pos hilt] at this
      exact List.length_eq_zero.mp (by omega)
    have hTnil : s.pendingTimers = [] := h3 (by
      intro hc
      rw [hc] at hg
      simp at hg)
    rw [onAnimationDone_eq]
    simp only [doneState]
    split <;> split
    · apply timerInv_startAnimation
      · exact hTnil
      · exact hAer
      · exact h6
    · apply timerInv_of_empty
      · exact hTnil
      · exact hAer
      · exact h6
    · apply timerInv_startAnimation
      · exact hTnil
      · exact hAer
      · exact h6
    · apply timerInv_of_empty
      · exact hTnil
      · exact hAer
      · exact h6

/-- The owner's `clear()` preserves the timer discipline. -/
theorem timerInv_clear (s : St I) (hinv : TimerInv s) : TimerInv (clear s) := by
  obtain ⟨h1, hcov, h3, h4, h5, h6⟩ := hinv
  have hT := clear_covered s hcov
  refine ⟨by simp [hT], by simp [hT], fun _ => hT, by simpa using h4,
    by simp [hT], ?_⟩
  intro id h
  rw [clear_animationTimeout] at h
  simpa using h6 id h

/-- The timer discipline holds in every state reachable by clean steps
(re-initialisations only with no animation in flight). -/
theorem timerInv_reach (cfg : Config I) (s : St I)
    (h : CleanReach (initialState cfg) s) : TimerInv s := by
  unfold CleanReach at h
  induction h with
  | refl =>
    exact timerInv_init (mkSt cfg)
      (timerInv_of_empty _ rfl rfl (fun id hid => Option.noConfusion hid)) rfl
  | tail hab hbc ih =>
    cases hbc with
    | ofRun hx hr =>
      cases hr with
      | fire i hi => exact timerInv_fire _ i ih
      | done i hi => exact timerInv_complete _ i ih
      | clearStep => exact timerInv_clear _ ih
    | reinitStep newCfg hA =>
      exact timerInv_init _ ih (by simpa using hA)
    | startOverStep hA =>
      exact timerInv_init _ (timerInv_clear _ ih) (by simpa using hA)

/-- Every timer armed by a (re)initialisation carries the fresh id, and
the handle afterwards is null or the fresh id. -/
theorem init_fresh_ids (s : St I)
    (hcov : ∀ t ∈ s.pendingTimers, s.animationTimeout = some t.id) :
    (∀ t ∈ (init s).pendingTimers, t.id = s.nextId) ∧
    ((init s).animationTimeout = none ∨
      (init s).animationTimeout = some s.nextId) := by
  obtain ⟨hcT, hcH⟩ := cancelViaHandle_covered s hcov
  have hgen : ∀ (X : St I) (w : List I) (c : Int) (f : Option Nat),
      X.pendingTimers = [] → X.animationTimeout = none → X.nextId = s.nextId →
      (∀ t ∈ (startAnimation X w c f).pendingTimers, t.id = s.nextId) ∧
      ((startAnimation X w c f).animationTimeout = none ∨
        (startAnimation X w c f).animationTimeout = some s.nextId) := by
    intro X w c f hT hH hN
    unfold startAnimation
    split
    · exact ⟨by simp [hT], Or.inl hH⟩
    · constructor
      · intro t ht
        simp [hT] at ht
        subst ht
        exact hN
      · right
        simp [hN]
  by_cases h0 : s.cfg.items.length = 0
  · cases hd : s.cfg.defaultItem with
    | some d =>
      rw [init_empty_some s d h0 hd]
      exact ⟨by simp [hcT], Or.inl (by simpa using hcH)⟩
    | none =>
      rw [init_empty_none s h0 hd]
      exact ⟨by simp [hcT], Or.inl hcH⟩
  · cases hen : s.cfg.isAnimationEnabled with
    | false =>
      rw [init_disabled s h0 hen]
      exact ⟨by simp [hcT], Or.inl hcH⟩
    | true =>
      cases hflag : s.isShowDefaultItemBefore with
      | true =>
        cases hd : s.cfg.defaultItem with
        | some d =>
          rw [init_fallback s d h0 hd hen hflag]
          exact hgen _ _ _ _ hcT (by simpa using hcH) (by simp)
        | none =>
          rw [init_normal s h0 hen (Or.inl hd)]
          split
          · exact hgen _ _ _ _ hcT (by simpa using hcH) (by simp)
          · exact ⟨by simp [hcT], Or.inl (by simpa using hcH)⟩
      | false =>
        rw [init_normal s h0 hen (Or.inr hflag)]
        split
        · exact hgen _ _ _ _ hcT (by simpa using hcH) (by simp)
        · exact ⟨by simp [hcT], Or.inl (by simpa using hcH)⟩

/-- C4 (amended): in every state reachable across any interleaving of
initialisation, timer fire, animation completion, prop-change
re-initialisation, `clear()` and `startOver()` in which no animation
started before a reset completes after it, at most one scheduled-advance
timer is pending; every re-initialisation cancels the timer referenced by
the handle and leaves a handle that never references it again; and
`clear()` cancels the pending timer but — deviating from the original
claim — does not null the handle.  (With a stale completion the "at most
one" part fails, see the counterexample.) -/
theorem pending_timer_discipline (cfg : Config I) (s : St I)
    (h : CleanReach (initialState cfg) s) :
    s.pendingTimers.length ≤ 1 ∧
    ((clear s).pendingTimers = [] ∧
      (clear s).animationTimeout = s.animationTimeout) ∧
    (∀ newCfg : Config I, ∀ id, s.animationTimeout = some id →
      (∀ t ∈ (reinit newCfg s).pendingTimers, t.id ≠ id) ∧
      (reinit newCfg s).animationTimeout ≠ some id) := by
  have hinv := timerInv_reach cfg s h
  obtain ⟨h1, hcov, h3, h4, h5, h6⟩ := hinv
  refine ⟨h1, ⟨clear_covered s hcov, clear_animationTimeout s⟩, ?_⟩
  intro newCfg id hid
  have hlt : id < s.nextId := h6 id hid
  have hcov' : ∀ t ∈ ({ s with cfg := newCfg } : St I).pendingTimers,
      ({ s with cfg := newCfg } : St I).animationTimeout = some t.id := hcov
  obtain ⟨hfresh, hhandle⟩ := init_fresh_ids { s with cfg := newCfg } hcov'
  unfold reinit
  constructor
  · intro t ht
    have := hfresh t ht
    simp at this
    omega
  · rcases hhandle with hh | hh
    · rw [hh]
      simp
    · rw [hh]
      simp
      omega

/-- C4 witness: the clean two-item mount. -/
theorem pending_timer_discipline_w :
    CleanReach (initialState (cfgN [0, 1] none true 0))
        (initialState (cfgN [0, 1] none true 0)) ∧
    ((initialState (cfgN [0, 1] none true 0)).pendingTimers.length ≤ 1 ∧
      ((clear (initialState (cfgN [0, 1] none true 0))).pendingTimers = [] ∧
        (clear (initialState (cfgN [0, 1] none true 0))).animationTimeout
          = (initialState (cfgN [0, 1] none true 0)).animationTimeout) ∧
      (∀ newCfg : Config Nat, ∀ id,
        (initialState (cfgN [0, 1] none true 0)).animationTimeout = some id →
        (∀ t ∈ (reinit newCfg (initialState (cfgN [0, 1] none true 0))).pendingTimers,
          t.id ≠ id) ∧
        (reinit newCfg (initialState (cfgN [0, 1] none true 0))).animationTimeout
          ≠ some id)) :=
  ⟨Relation.ReflTransGen.refl,
    pending_timer_discipline (cfgN [0, 1] none true 0)
      (initialState (cfgN [0, 1] none true 0)) Relation.ReflTransGen.refl⟩

end VerticalCarousel
